import Mathlib

/-!
Verification of the MealFrame weekly-plan lifecycle and rotation engine.

This file is a shallow embedding, in Lean 4, of the service layer of the
`mealframe` backend (files `backend/app/services/round_robin.py`,
`backend/app/services/weekly.py`, `backend/app/services/today.py`) together
with theorems settling the behavioural claims about it.

Modelling conventions:
* Database rows become Lean structures; UUIDs become `Nat` ids; SQL `NULL`
  becomes `Option`.
* Calendar dates are integers counting days from an epoch that falls on a
  Monday, so `weekday d = d.emod 7` with `0 = Monday`, matching Python's
  `date.weekday()`.
* Timestamps (`datetime.now()`) are passed in as explicit `now : Nat`
  parameters where the code stores them.
* Async database sessions become explicit state passing: an operation takes
  the database value `DB` and returns its result together with the new `DB`.
  A function that performs only SELECT queries takes the `DB` and returns no
  new one; it cannot write, by construction.
* SQL `ORDER BY` / Python `sorted` become `List.insertionSort` with the
  corresponding key order.
-/

namespace MealFrame

/-- A row of the `meal` table.  Only the columns the rotation algorithm
reads are modelled: the primary key and `created_at` (the ordering key). -/
structure Meal where
  id : Nat
  createdAt : Nat
deriving DecidableEq, Repr

/-- A row of the `round_robin_state` table: the rotation-ledger pointer.
`last_meal_id` is nullable (`ondelete="SET NULL"`). -/
structure RRState where
  lastMealId : Option Nat
deriving DecidableEq, Repr

/-- The `last_index` loop of `get_next_meal_for_type`
(`round_robin.py` lines 175-179): `last_index = -1`, scan the ordered meal
list, stop at the first meal whose id equals `lastId`.  Returns the first
matching index, or `-1` when no meal matches. -/
def findLastUsedIndex (meals : List Meal) (lastId : Nat) : Int :=
  match meals with
  | [] => -1
  | m :: rest =>
    if m.id = lastId then 0
    else
      let r := findLastUsedIndex rest lastId
      if r < 0 then -1 else r + 1

/-- `update_round_robin_state` (`round_robin.py` lines 89-127) restricted to
one ledger cell: whether the row existed or not, afterwards the cell holds
the selected meal id. -/
def update_round_robin_state (state : Option RRState) (mealId : Nat) : Option RRState :=
  match state with
  | some _ => some { lastMealId := some mealId }
  | none => some { lastMealId := some mealId }

/-- `reset_round_robin_state` (`round_robin.py` lines 234-253): deletes the
ledger row, so a subsequent read finds nothing. -/
def reset_round_robin_state (state : Option RRState) : Option RRState :=
  match state with
  | some _ => none
  | none => none

/-- Core of `get_next_meal_for_type` (`round_robin.py` lines 130-190),
abstracted over the ordered candidate list and the current ledger cell.
Returns the selected meal and the ledger cell after the call.
* no meals: `none`, no ledger write;
* one meal: that meal, ledger updated to it;
* otherwise: look up the ledger pointer in the list (`findLastUsedIndex`,
  `-1` when absent/not found), advance by one modulo the length, update the
  ledger to the selection. -/
def get_next_meal_from_meals (meals : List Meal) (state : Option RRState) :
    Option Meal × Option RRState :=
  match meals with
  | [] => (none, state)
  | m :: rest =>
    if rest = [] then
      (some m, update_round_robin_state state m.id)
    else
      let nextMeal :=
        match state with
        | none => m
        | some s =>
          match s.lastMealId with
          | none => m
          | some lastId =>
            let lastIndex := findLastUsedIndex (m :: rest) lastId
            let nextIndex := ((lastIndex + 1) % ((m :: rest).length : Int)).toNat
            (m :: rest).getD nextIndex m
      (some nextMeal, update_round_robin_state state nextMeal.id)

/-- Core of `peek_next_meal_for_type` (`round_robin.py` lines 193-231):
the identical computation, with no ledger write (hence no state returned). -/
def peek_next_meal_from_meals (meals : List Meal) (state : Option RRState) :
    Option Meal :=
  match meals with
  | [] => none
  | m :: rest =>
    if rest = [] then
      some m
    else
      match state with
      | none => some m
      | some s =>
        match s.lastMealId with
        | none => some m
        | some lastId =>
          let lastIndex := findLastUsedIndex (m :: rest) lastId
          let nextIndex := ((lastIndex + 1) % ((m :: rest).length : Int)).toNat
          some ((m :: rest).getD nextIndex m)

/-- A run of `n` consecutive `nextItem` calls against an unchanged candidate
list, threading the ledger cell, collecting the selections in order. -/
def runNextMeal (meals : List Meal) : Option RRState → Nat → List (Option Meal)
  | _, 0 => []
  | st, n + 1 =>
    let p := get_next_meal_from_meals meals st
    p.1 :: runNextMeal meals p.2 n

/-- The closed set of completion statuses
(check constraint `ck_weekly_plan_slot_status`). -/
inductive CompletionStatus
  | followed
  | equivalent
  | skipped
  | deviated
  | social
deriving DecidableEq, Repr

/-- A row of `weekly_plan_slot`.  The table has no `updated_at` column
(the `slot.updated_at = ...` assignment in `regenerate_weekly_plan` sets a
plain Python attribute that is not persisted), so none is modelled. -/
structure Slot where
  id : Nat
  weeklyPlanInstanceId : Nat
  date : Int
  position : Int
  mealTypeId : Option Nat
  mealId : Option Nat
  isAdhoc : Bool
  isManualOverride : Bool
  completionStatus : Option CompletionStatus
  completedAt : Option Nat
  actualMealId : Option Nat
deriving DecidableEq, Repr

/-- A row of `weekly_plan_instance_day`; `(weeklyPlanInstanceId, date)` is
unique, so rows are addressed by that key rather than by surrogate id. -/
structure InstanceDay where
  weeklyPlanInstanceId : Nat
  date : Int
  dayTemplateId : Option Nat
  isOverride : Bool
  overrideReason : Option String
  updatedAt : Nat
deriving DecidableEq, Repr

/-- A row of `weekly_plan_instance` (service code scopes it by `user_id`). -/
structure WeeklyPlanInstance where
  id : Nat
  weekPlanId : Option Nat
  weekStartDate : Int
  userId : Nat
deriving DecidableEq, Repr

/-- A row of `day_template_slot` (`position` and `meal_type_id` are
non-nullable). -/
structure DayTemplateSlot where
  position : Int
  mealTypeId : Nat
deriving DecidableEq, Repr

/-- A row of `day_template` with its slot rows. -/
structure DayTemplate where
  id : Nat
  slots : List DayTemplateSlot
deriving DecidableEq, Repr

/-- A row of `week_plan_day` (`day_template_id` is non-nullable). -/
structure WeekPlanDay where
  weekday : Nat
  dayTemplateId : Nat
deriving DecidableEq, Repr

/-- A row of `week_plan` with its weekday rows. -/
structure WeekPlan where
  id : Nat
  userId : Nat
  isDefault : Bool
  days : List WeekPlanDay
deriving DecidableEq, Repr

/-- The relational store, one list per table, plus id counters standing in
for UUID generation.  The rotation ledger is keyed by meal type id, as in
the service queries (`get_round_robin_state` filters only on
`meal_type_id`). -/
structure DB where
  meals : List Meal
  mealToMealType : List (Nat × Nat)
  weekPlans : List WeekPlan
  dayTemplates : List DayTemplate
  instances : List WeeklyPlanInstance
  instanceDays : List InstanceDay
  slots : List Slot
  rrStates : List (Nat × RRState)
  nextSlotId : Nat
  nextInstanceId : Nat
deriving DecidableEq, Repr

/-- `ORDER BY created_at ASC, id ASC` as a relation on meal rows. -/
def mealOrder (a b : Meal) : Prop :=
  a.createdAt < b.createdAt ∨ (a.createdAt = b.createdAt ∧ a.id ≤ b.id)

instance : DecidableRel mealOrder := fun a b => by
  unfold mealOrder
  exact inferInstance

/-- `sorted(template.slots, key=lambda s: s.position)`. -/
def templateSlotOrder (a b : DayTemplateSlot) : Prop :=
  a.position ≤ b.position

instance : DecidableRel templateSlotOrder := fun a b => by
  unfold templateSlotOrder
  exact inferInstance

/-- `ORDER BY position` on slot rows. -/
def slotPositionOrder (a b : Slot) : Prop :=
  a.position ≤ b.position

instance : DecidableRel slotPositionOrder := fun a b => by
  unfold slotPositionOrder
  exact inferInstance

def sortTemplateSlots (tslots : List DayTemplateSlot) : List DayTemplateSlot :=
  List.insertionSort templateSlotOrder tslots

/-- `get_meals_for_type` (`round_robin.py` lines 27-51): the meals joined to
the meal type, ordered by `(created_at ASC, id ASC)`. -/
def get_meals_for_type (db : DB) (mealTypeId : Nat) : List Meal :=
  List.insertionSort mealOrder
    (db.meals.filter (fun m => decide ((m.id, mealTypeId) ∈ db.mealToMealType)))

/-- `get_round_robin_state` (`round_robin.py` lines 54-76): the ledger row
for the meal type, if any. -/
def get_round_robin_state (db : DB) (mealTypeId : Nat) : Option RRState :=
  (db.rrStates.find? (fun p => decide (p.1 = mealTypeId))).map (fun p => p.2)

/-- `update_round_robin_state` at the database level
(`round_robin.py` lines 89-127): upsert of the ledger row. -/
def update_round_robin_state_db (db : DB) (mealTypeId mealId : Nat) : DB :=
  match get_round_robin_state db mealTypeId with
  | some _ =>
    { db with rrStates := db.rrStates.map (fun p =>
        if p.1 = mealTypeId then (p.1, { lastMealId := some mealId }) else p) }
  | none =>
    { db with rrStates := db.rrStates ++ [(mealTypeId, { lastMealId := some mealId })] }

/-- `get_next_meal_for_type` (`round_robin.py` lines 130-190): fetch the
ordered candidates, run the core selection, and write the ledger when a
meal was selected (the empty-candidates branch returns with no write). -/
def get_next_meal_for_type (db : DB) (mealTypeId : Nat) : Option Meal × DB :=
  let meals := get_meals_for_type db mealTypeId
  match get_next_meal_from_meals meals (get_round_robin_state db mealTypeId) with
  | (none, _) => (none, db)
  | (some m, _) => (some m, update_round_robin_state_db db mealTypeId m.id)

/-- `peek_next_meal_for_type` (`round_robin.py` lines 193-231): the same
computation from the same reads, with no write — hence no `DB` returned. -/
def peek_next_meal_for_type (db : DB) (mealTypeId : Nat) : Option Meal :=
  peek_next_meal_from_meals (get_meals_for_type db mealTypeId)
    (get_round_robin_state db mealTypeId)

/-- `get_week_start_date` (`weekly.py` lines 32-35 and `today.py` lines
35-38): the Monday of the week containing the date.  With the epoch on a
Monday, `weekday d = d.emod 7`. -/
def get_week_start_date (targetDate : Int) : Int :=
  targetDate - targetDate.emod 7

/-- `date.weekday()` under the epoch-Monday encoding. -/
def dateWeekday (d : Int) : Int :=
  d.emod 7

/-- `get_next_monday` (`weekly.py` lines 38-46). -/
def get_next_monday (fromDate : Int) : Int :=
  let daysUntilMonday := (7 - dateWeekday fromDate).emod 7
  let daysUntilMonday := if daysUntilMonday = 0 then 7 else daysUntilMonday
  fromDate + daysUntilMonday

/-- `get_slot_by_id` (`today.py` lines 261-268). -/
def get_slot_by_id (db : DB) (slotId : Nat) : Option Slot :=
  db.slots.find? (fun s => decide (s.id = slotId))

/-- Mutation of the fetched ORM slot row, expressed over the table: apply
`f` to the row(s) with the given primary key. -/
def updateSlotById (slots : List Slot) (slotId : Nat) (f : Slot → Slot) : List Slot :=
  slots.map (fun s => if s.id = slotId then f s else s)

/-- `uncomplete_slot` (`today.py` lines 293-311): `None` when the slot does
not exist; otherwise set `completion_status` and `completed_at` to `NULL`
(and nothing else) and return the updated row. -/
def uncomplete_slot (db : DB) (slotId : Nat) : Option Slot × DB :=
  match get_slot_by_id db slotId with
  | none => (none, db)
  | some s =>
    let clear := fun (t : Slot) => { t with completionStatus := none, completedAt := none }
    (some (clear s), { db with slots := updateSlotById db.slots slotId clear })

/-- `coalesce(max(position), -1)` over the positions of the selected rows. -/
def maxPositionOr (positions : List Int) (dflt : Int) : Int :=
  match positions with
  | [] => dflt
  | p :: rest => rest.foldl max p

/-- `create_adhoc_slot` (`today.py` lines 314-382): requires the weekly
instance of the week containing the date and the meal row; position is
`coalesce(max(position), -1) + 1` over that instance-and-date's slots; the
meal type defaults to the meal's first linked meal type; the new slot is
ad-hoc with `NULL` completion.  No rotation call is made. -/
def create_adhoc_slot (db : DB) (targetDate : Int) (mealId : Nat) : Option Slot × DB :=
  let weekStart := get_week_start_date targetDate
  match db.instances.find? (fun i => decide (i.weekStartDate = weekStart)) with
  | none => (none, db)
  | some inst =>
    match db.meals.find? (fun m => decide (m.id = mealId)) with
    | none => (none, db)
    | some _ =>
      let daySlots := db.slots.filter (fun s =>
        decide (s.weeklyPlanInstanceId = inst.id ∧ s.date = targetDate))
      let nextPosition := maxPositionOr (daySlots.map (fun s => s.position)) (-1) + 1
      let firstMealTypeId :=
        ((db.mealToMealType.filter (fun p => decide (p.1 = mealId))).head?).map
          (fun p => p.2)
      let slot : Slot := {
        id := db.nextSlotId,
        weeklyPlanInstanceId := inst.id,
        date := targetDate,
        position := nextPosition,
        mealTypeId := firstMealTypeId,
        mealId := some mealId,
        isAdhoc := true,
        isManualOverride := false,
        completionStatus := none,
        completedAt := none,
        actualMealId := none }
      (some slot, { db with slots := db.slots ++ [slot], nextSlotId := db.nextSlotId + 1 })

/-- The error strings returned by `reassign_slot`. -/
inductive ReassignError
  | notFound
  | pastDate
  | mealNotFound
  | mealTypeMismatch
deriving DecidableEq, Repr

/-- The slot mutation applied by `reassign_slot` on success
(`today.py` lines 464-473): set the meal, optionally the meal type, set
`is_manual_override`, and clear completion status and timestamp when a
completion status is present. -/
def reassignUpdate (mealId : Nat) (mealTypeId : Option Nat) (s : Slot) : Slot :=
  let s1 := { s with mealId := some mealId }
  let s2 :=
    match mealTypeId with
    | some t => { s1 with mealTypeId := some t }
    | none => s1
  let s3 := { s2 with isManualOverride := true }
  if s3.completionStatus ≠ none then
    { s3 with completionStatus := none, completedAt := none }
  else s3

/-- `reassign_slot` (`today.py` lines 408-480).  Checks, in order: slot
exists; slot date not before today; meal exists; meal linked to the
effective meal type (the explicit one if given, else the slot's current
one) when that is set.  On success applies `reassignUpdate` to the slot.
The rotation ledger is not read or written. -/
def reassign_slot (db : DB) (slotId mealId : Nat) (mealTypeId : Option Nat)
    (today : Int) : Option ReassignError × Option Slot × DB :=
  match get_slot_by_id db slotId with
  | none => (some .notFound, none, db)
  | some slot =>
    if slot.date < today then (some .pastDate, none, db)
    else
      match db.meals.find? (fun m => decide (m.id = mealId)) with
      | none => (some .mealNotFound, none, db)
      | some _ =>
        let targetMealTypeId :=
          match mealTypeId with
          | some t => some t
          | none => slot.mealTypeId
        let mismatch :=
          match targetMealTypeId with
          | some t => decide ((mealId, t) ∉ db.mealToMealType)
          | none => false
        if mismatch then (some .mealTypeMismatch, none, db)
        else
          (none, some (reassignUpdate mealId mealTypeId slot),
           { db with slots := updateSlotById db.slots slotId (reassignUpdate mealId mealTypeId) })

/-- `get_default_week_plan` (`weekly.py` lines 49-57). -/
def get_default_week_plan (db : DB) (userId : Nat) : Option WeekPlan :=
  db.weekPlans.find? (fun wp => decide (wp.isDefault = true ∧ wp.userId = userId))

/-- `get_week_plan_by_id` (`weekly.py` lines 60-68); no user filter. -/
def get_week_plan_by_id (db : DB) (weekPlanId : Nat) : Option WeekPlan :=
  db.weekPlans.find? (fun wp => decide (wp.id = weekPlanId))

/-- `get_weekly_instance_by_week_start` (`weekly.py` lines 71-80). -/
def get_weekly_instance_by_week_start (db : DB) (weekStartDate : Int) (userId : Nat) :
    Option WeeklyPlanInstance :=
  db.instances.find? (fun i =>
    decide (i.weekStartDate = weekStartDate ∧ i.userId = userId))

/-- `get_day_template_by_id` (`weekly.py` lines 83-91). -/
def get_day_template_by_id (db : DB) (templateId : Nat) : Option DayTemplate :=
  db.dayTemplates.find? (fun t => decide (t.id = templateId))

/-- `get_instance_day` (`weekly.py` lines 264-279): the day row for
`(instance, date)`. -/
def get_instance_day (db : DB) (instanceId : Nat) (targetDate : Int) :
    Option InstanceDay :=
  db.instanceDays.find? (fun d =>
    decide (d.weeklyPlanInstanceId = instanceId ∧ d.date = targetDate))

/-- `get_slots_for_instance_day` (`weekly.py` lines 241-261): that day's
slot rows, ordered by position. -/
def get_slots_for_instance_day (db : DB) (instanceId : Nat) (targetDate : Int) :
    List Slot :=
  List.insertionSort slotPositionOrder
    (db.slots.filter (fun s =>
      decide (s.weeklyPlanInstanceId = instanceId ∧ s.date = targetDate)))

/-- One iteration of the slot-generation loop: draw the next meal from the
rotation for the template slot's meal type and insert a fresh slot row
with that meal (or `NULL`) and `NULL` completion. -/
def genSlotStep (instanceId : Nat) (targetDate : Int) (db : DB)
    (ts : DayTemplateSlot) : DB :=
  let p := get_next_meal_for_type db ts.mealTypeId
  let db1 := p.2
  let slot : Slot := {
    id := db1.nextSlotId,
    weeklyPlanInstanceId := instanceId,
    date := targetDate,
    position := ts.position,
    mealTypeId := some ts.mealTypeId,
    mealId := p.1.map Meal.id,
    isAdhoc := false,
    isManualOverride := false,
    completionStatus := none,
    completedAt := none,
    actualMealId := none }
  { db1 with slots := db1.slots ++ [slot], nextSlotId := db1.nextSlotId + 1 }

/-- The slot-generation loop shared verbatim by `generate_weekly_plan`
(lines 187-199), `switch_day_template` (lines 339-351) and
`clear_day_override` (lines 449-461) of `weekly.py`: for each template slot
in order, run `genSlotStep`. -/
def generate_slots_for_day (db : DB) (instanceId : Nat) (targetDate : Int)
    (tslots : List DayTemplateSlot) : DB :=
  tslots.foldl (genSlotStep instanceId targetDate) db

/-- `day_map = {wpd.weekday: wpd.day_template_id}` followed by
`day_map.get(weekday)` — a Python dict keeps the last entry per key. -/
def day_map_get (days : List WeekPlanDay) (wd : Nat) : Option Nat :=
  (days.reverse.find? (fun d => decide (d.weekday = wd))).map
    (fun d => d.dayTemplateId)

/-- One iteration of the per-weekday loop of `generate_weekly_plan`
(`weekly.py` lines 160-199): skip unmapped weekdays; otherwise insert the
`InstanceDay` row (`is_override=False`) and, when the template row
resolves, run the slot-generation loop over its slots sorted by
position. -/
def genDayStep (instId : Nat) (ws : Int) (now : Nat) (days : List WeekPlanDay)
    (db : DB) (dayOffset : Nat) : DB :=
  let currentDate := ws + (dayOffset : Int)
  match day_map_get days dayOffset with
  | none => db
  | some templateId =>
    let day : InstanceDay := {
      weeklyPlanInstanceId := instId,
      date := currentDate,
      dayTemplateId := some templateId,
      isOverride := false,
      overrideReason := none,
      updatedAt := now }
    let db2 := { db with instanceDays := db.instanceDays ++ [day] }
    match get_day_template_by_id db2 templateId with
    | none => db2
    | some template =>
      generate_slots_for_day db2 instId currentDate
        (sortTemplateSlots template.slots)

/-- The `ValueError`s raised by `generate_weekly_plan`. -/
inductive GenerateError
  | notMonday
  | alreadyExists
  | weekPlanNotFound
  | noDefaultWeekPlan
deriving DecidableEq, Repr

/-- `generate_weekly_plan` (`weekly.py` lines 94-202).  Checks, in order:
the week start (default: next Monday after today) is a Monday; no instance
exists for `(week start, user)`; the week plan resolves (the explicit one
if an id was passed, else the user's default).  On success: insert the
instance; for each weekday 0-6 with a day template mapped, insert a day row
(`is_override=False`) and, when the template row resolves, run the slot
generation loop over its slots sorted by position. -/
def generate_weekly_plan (db : DB) (weekStartDate : Option Int)
    (weekPlanId : Option Nat) (userId : Nat) (today : Int) (now : Nat) :
    Except GenerateError (WeeklyPlanInstance × DB) :=
  let ws := match weekStartDate with
    | none => get_next_monday today
    | some d => d
  if dateWeekday ws ≠ 0 then .error .notMonday
  else if (get_weekly_instance_by_week_start db ws userId).isSome then
    .error .alreadyExists
  else
    let weekPlanResult : Except GenerateError WeekPlan :=
      match weekPlanId with
      | some wid =>
        match get_week_plan_by_id db wid with
        | none => .error .weekPlanNotFound
        | some wp => .ok wp
      | none =>
        match get_default_week_plan db userId with
        | none => .error .noDefaultWeekPlan
        | some wp => .ok wp
    match weekPlanResult with
    | .error e => .error e
    | .ok weekPlan =>
      let inst : WeeklyPlanInstance := {
        id := db.nextInstanceId,
        weekPlanId := some weekPlan.id,
        weekStartDate := ws,
        userId := userId }
      let db0 := { db with
        instances := db.instances ++ [inst],
        nextInstanceId := db.nextInstanceId + 1 }
      let dbFinal := (List.range 7).foldl (genDayStep inst.id ws now weekPlan.days) db0
      .ok (inst, dbFinal)

/-- The `ValueError`s raised by `switch_day_template`. -/
inductive SwitchError
  | dayNotFound
  | templateNotFound
deriving DecidableEq, Repr

/-- `switch_day_template` (`weekly.py` lines 282-357).  Requires the day
row for `(instance, date)` and the new template row.  Deletes every slot
row of that instance and date, rewrites the day row (new template,
`is_override=False`, reason cleared, `updated_at` now), then runs the slot
generation loop over the new template's slots sorted by position. -/
def switch_day_template (db : DB) (instanceId : Nat) (targetDate : Int)
    (newTemplateId : Nat) (now : Nat) : Except SwitchError DB :=
  match get_instance_day db instanceId targetDate with
  | none => .error .dayNotFound
  | some _ =>
    match get_day_template_by_id db newTemplateId with
    | none => .error .templateNotFound
    | some template =>
      let db1 := { db with slots := db.slots.filter (fun s =>
        decide (¬(s.weeklyPlanInstanceId = instanceId ∧ s.date = targetDate))) }
      let db2 := { db1 with instanceDays := db1.instanceDays.map (fun d =>
        if d.weeklyPlanInstanceId = instanceId ∧ d.date = targetDate then
          { d with dayTemplateId := some newTemplateId, isOverride := false,
                   overrideReason := none, updatedAt := now }
        else d) }
      .ok (generate_slots_for_day db2 instanceId targetDate
        (sortTemplateSlots template.slots))

/-- The `ValueError`s raised by `regenerate_weekly_plan`. -/
inductive RegenerateError
  | noWeekPlan
  | couldNotLoad
deriving DecidableEq, Repr

/-- `template_slots_by_position = {ts.position: ts for ts in template.slots}`
followed by `.get(slot.position)` — a Python dict keeps the last entry per
key. -/
def template_slot_at_position (tslots : List DayTemplateSlot) (p : Int) :
    Option DayTemplateSlot :=
  tslots.reverse.find? (fun ts => decide (ts.position = p))

/-- One iteration of the per-slot loop of `regenerate_weekly_plan`
(`weekly.py` lines 545-555): when the slot's position has a template slot,
draw the next rotation meal for that template slot's meal type and
overwrite the slot's meal id (nothing else). -/
def regenSlotStep (template : DayTemplate) (db : DB) (slot : Slot) : DB :=
  match template_slot_at_position template.slots slot.position with
  | none => db
  | some ts =>
    let p := get_next_meal_for_type db ts.mealTypeId
    let db1 := p.2
    let newSlots := updateSlotById db1.slots slot.id
      (fun t => { t with mealId := p.1.map Meal.id })
    { db1 with slots := newSlots }

/-- The per-day body of `regenerate_weekly_plan` (`weekly.py` lines
517-555): skip override days and days without a template; collect the
day's slots and keep those with `NULL` completion status; if none remain or
the template row is missing, do nothing; otherwise, for each uncompleted
slot whose position has a template slot, draw the next rotation meal for
that template slot's meal type and overwrite the slot's meal id. -/
def regenerate_day (db : DB) (instanceId : Nat) (day : InstanceDay) : DB :=
  if day.isOverride then db
  else
    match day.dayTemplateId with
    | none => db
    | some templateId =>
      let currentSlots := get_slots_for_instance_day db instanceId day.date
      let uncompletedSlots := currentSlots.filter (fun s =>
        decide (s.completionStatus = none))
      if uncompletedSlots = [] then db
      else
        match get_day_template_by_id db templateId with
        | none => db
        | some template =>
          uncompletedSlots.foldl (regenSlotStep template) db

/-- `regenerate_weekly_plan` (`weekly.py` lines 473-558).  The argument
week start is normalised to its Monday; requires an existing instance for
`(week start, user)` (re-fetched by id, as `get_full_weekly_instance`
does); then every day of the instance is processed by `regenerate_day`.
The local `today = date.today()` of the source is never used, so it is not
modelled. -/
def regenerate_weekly_plan (db : DB) (weekStartArg : Int) (userId : Nat) :
    Except RegenerateError (WeeklyPlanInstance × DB) :=
  let weekStartDate := get_week_start_date weekStartArg
  match get_weekly_instance_by_week_start db weekStartDate userId with
  | none => .error .noWeekPlan
  | some inst =>
    match db.instances.find? (fun i => decide (i.id = inst.id)) with
    | none => .error .couldNotLoad
    | some fullInst =>
      let days := db.instanceDays.filter (fun d =>
        decide (d.weeklyPlanInstanceId = fullInst.id))
      .ok (inst, days.foldl (fun db day => regenerate_day db fullInst.id day) db)

/-! ### Field-frame predicates and success predicates used in the claim
statements -/

/-- Equality of all slot columns except `completion_status` and
`completed_at`. -/
def SlotNonCompletionEq (a b : Slot) : Prop :=
  a.id = b.id ∧ a.weeklyPlanInstanceId = b.weeklyPlanInstanceId ∧
  a.date = b.date ∧ a.position = b.position ∧ a.mealTypeId = b.mealTypeId ∧
  a.mealId = b.mealId ∧ a.isAdhoc = b.isAdhoc ∧
  a.isManualOverride = b.isManualOverride ∧ a.actualMealId = b.actualMealId

/-- Equality of all slot columns except `meal_id`. -/
def SlotNonMealEq (a b : Slot) : Prop :=
  a.id = b.id ∧ a.weeklyPlanInstanceId = b.weeklyPlanInstanceId ∧
  a.date = b.date ∧ a.position = b.position ∧ a.mealTypeId = b.mealTypeId ∧
  a.isAdhoc = b.isAdhoc ∧ a.isManualOverride = b.isManualOverride ∧
  a.completionStatus = b.completionStatus ∧ a.completedAt = b.completedAt ∧
  a.actualMealId = b.actualMealId

/-- What `uncomplete_slot` guarantees when the slot was found: the returned
row and the stored row have completion status and timestamp cleared, and
every other column of every row — including `actual_meal_id` — is exactly
as before. -/
def UncompleteFound (db : DB) (slotId : Nat) (s : Slot) : Prop :=
  (uncomplete_slot db slotId).1 =
    some { s with completionStatus := none, completedAt := none } ∧
  (uncomplete_slot db slotId).2.slots.length = db.slots.length ∧
  (∀ i (h : i < db.slots.length)
      (h2 : i < (uncomplete_slot db slotId).2.slots.length),
    SlotNonCompletionEq ((uncomplete_slot db slotId).2.slots.get ⟨i, h2⟩)
        (db.slots.get ⟨i, h⟩) ∧
    ((db.slots.get ⟨i, h⟩).id = slotId →
      ((uncomplete_slot db slotId).2.slots.get ⟨i, h2⟩).completionStatus = none ∧
      ((uncomplete_slot db slotId).2.slots.get ⟨i, h2⟩).completedAt = none) ∧
    ((db.slots.get ⟨i, h⟩).id ≠ slotId →
      (uncomplete_slot db slotId).2.slots.get ⟨i, h2⟩ = db.slots.get ⟨i, h⟩)) ∧
  (uncomplete_slot db slotId).2.rrStates = db.rrStates ∧
  (uncomplete_slot db slotId).2.instanceDays = db.instanceDays ∧
  (uncomplete_slot db slotId).2.instances = db.instances

/-- The `InstanceDay` row that `generate_weekly_plan` inserts for a mapped
weekday, or `none` for an unmapped one. -/
def gen_day_for (instId : Nat) (ws : Int) (now : Nat) (days : List WeekPlanDay)
    (wd : Nat) : Option InstanceDay :=
  (day_map_get days wd).map (fun tid =>
    { weeklyPlanInstanceId := instId, date := ws + (wd : Int),
      dayTemplateId := some tid, isOverride := false, overrideReason := none,
      updatedAt := now })

/-- How many slot rows generation inserts for one weekday: the slot count
of the mapped, resolved day template; `0` for an unmapped weekday or a
dangling template reference. -/
def mappedTemplateSlotCount (db : DB) (days : List WeekPlanDay) (wd : Nat) : Nat :=
  match day_map_get days wd with
  | none => 0
  | some tid =>
    match get_day_template_by_id db tid with
    | none => 0
    | some t => t.slots.length

/-- The week plan `generate_weekly_plan` uses: the explicit one when an id
was passed, else the user's default. -/
def resolved_week_plan (db : DB) (weekPlanId : Option Nat) (userId : Nat) :
    Option WeekPlan :=
  match weekPlanId with
  | some wid => get_week_plan_by_id db wid
  | none => get_default_week_plan db userId

/-- The instance row `generate_weekly_plan` inserts. -/
def gen_inst_for (db : DB) (ws : Int) (userId : Nat) (wp : WeekPlan) :
    WeeklyPlanInstance :=
  { id := db.nextInstanceId, weekPlanId := some wp.id, weekStartDate := ws,
    userId := userId }

/-- The database state right after `generate_weekly_plan` inserts the
instance row, before the per-weekday loop. -/
def gen_db0_for (db : DB) (ws : Int) (userId : Nat) (wp : WeekPlan) : DB :=
  { db with
    instances := db.instances ++ [gen_inst_for db ws userId wp],
    nextInstanceId := db.nextInstanceId + 1 }

/-- What a successful `generate_weekly_plan` produces: the new instance row
is appended; one `InstanceDay` (`is_override = false`) is appended per
mapped weekday of the resolved week plan, in weekday order, unmapped
weekdays being skipped; and the appended slot rows all have null completion
with one slot per slot of each mapped resolved template. -/
def GenerateSuccess (db : DB) (ws : Int) (userId : Nat) (now : Nat)
    (wp : WeekPlan) (inst : WeeklyPlanInstance) (db2 : DB) : Prop :=
  inst.id = db.nextInstanceId ∧
  inst.weekPlanId = some wp.id ∧
  inst.weekStartDate = ws ∧
  inst.userId = userId ∧
  db2.instances = db.instances ++ [inst] ∧
  db2.instanceDays = db.instanceDays ++
    (List.range 7).filterMap (gen_day_for inst.id ws now wp.days) ∧
  (∃ extra, db2.slots = db.slots ++ extra ∧
    (∀ s ∈ extra, s.weeklyPlanInstanceId = inst.id ∧
      s.completionStatus = none ∧ s.completedAt = none ∧
      s.isAdhoc = false ∧ s.isManualOverride = false) ∧
    extra.length = ((List.range 7).map (mappedTemplateSlotCount db wp.days)).sum)

/-- What a successful `switch_day_template` produces: every slot row of
that instance and date (completed or not) is gone; the day row now points
at the new template with the override flag and reason cleared; and the
fresh slot rows are exactly one per new-template slot, in position order,
each with null completion. -/
def SwitchSuccess (db : DB) (instanceId : Nat) (targetDate : Int)
    (newTemplateId : Nat) (now : Nat) (template : DayTemplate) : Prop :=
  ∃ db2 newSlots,
    switch_day_template db instanceId targetDate newTemplateId now = .ok db2 ∧
    db2.instanceDays = db.instanceDays.map (fun d =>
      if d.weeklyPlanInstanceId = instanceId ∧ d.date = targetDate then
        { d with dayTemplateId := some newTemplateId, isOverride := false,
                 overrideReason := none, updatedAt := now }
      else d) ∧
    db2.slots = (db.slots.filter (fun s =>
      decide (¬(s.weeklyPlanInstanceId = instanceId ∧ s.date = targetDate))))
      ++ newSlots ∧
    newSlots.length = template.slots.length ∧
    newSlots.map Slot.position =
      (sortTemplateSlots template.slots).map DayTemplateSlot.position ∧
    newSlots.map Slot.mealTypeId =
      (sortTemplateSlots template.slots).map (fun ts => some ts.mealTypeId) ∧
    (∀ s ∈ newSlots, s.weeklyPlanInstanceId = instanceId ∧
      s.date = targetDate ∧ s.completionStatus = none ∧ s.completedAt = none ∧
      s.isAdhoc = false ∧ s.isManualOverride = false)

/-- A slot id that regeneration is allowed to re-roll: some original slot
row carries it, that row has null completion status, belongs to the
instance, and its date has a non-override, template-bearing day row. -/
def GoodTarget (instId : Nat) (db0 : DB) (targetId : Nat) : Prop :=
  ∃ j, ∃ hj : j < db0.slots.length,
    (db0.slots.get ⟨j, hj⟩).id = targetId ∧
    (db0.slots.get ⟨j, hj⟩).completionStatus = none ∧
    (db0.slots.get ⟨j, hj⟩).weeklyPlanInstanceId = instId ∧
    ∃ day ∈ db0.instanceDays, day.weeklyPlanInstanceId = instId ∧
      day.date = (db0.slots.get ⟨j, hj⟩).date ∧ day.isOverride = false ∧
      day.dayTemplateId.isSome = true

/-- Row-by-row relation between the original slot table and the current
one during regeneration: same number of rows, every column except
`meal_id` unchanged, and any row whose `meal_id` differs was an
uncompleted row of the instance on an eligible (non-override, templated)
day. -/
def RegenPreserve (instId : Nat) (db0 : DB) (cur : List Slot) : Prop :=
  cur.length = db0.slots.length ∧
  (∀ i, ∀ h : i < db0.slots.length, ∀ h2 : i < cur.length,
    SlotNonMealEq (cur.get ⟨i, h2⟩) (db0.slots.get ⟨i, h⟩) ∧
    ((cur.get ⟨i, h2⟩).mealId ≠ (db0.slots.get ⟨i, h⟩).mealId →
      (db0.slots.get ⟨i, h⟩).completionStatus = none ∧
      (db0.slots.get ⟨i, h⟩).weeklyPlanInstanceId = instId ∧
      ∃ day ∈ db0.instanceDays, day.weeklyPlanInstanceId = instId ∧
        day.date = (db0.slots.get ⟨i, h⟩).date ∧ day.isOverride = false ∧
        day.dayTemplateId.isSome = true))

/-- Invariant threaded through the regeneration folds: only the slot table
and the rotation ledger have changed, and the slot table satisfies
`RegenPreserve`. -/
def RegenInv (instId : Nat) (db0 cur : DB) : Prop :=
  cur.meals = db0.meals ∧ cur.mealToMealType = db0.mealToMealType ∧
  cur.weekPlans = db0.weekPlans ∧ cur.dayTemplates = db0.dayTemplates ∧
  cur.instances = db0.instances ∧ cur.instanceDays = db0.instanceDays ∧
  cur.nextSlotId = db0.nextSlotId ∧ cur.nextInstanceId = db0.nextInstanceId ∧
  RegenPreserve instId db0 cur.slots

/-- What a successful regeneration guarantees about the slot table (claim
C2): completed rows are bit-for-bit untouched, nothing but `meal_id` ever
changes, and a changed `meal_id` happens only on an uncompleted row of a
non-override, template-bearing day. -/
def RegenOutcome (db0 db2 : DB) : Prop :=
  db2.slots.length = db0.slots.length ∧
  (∀ i, ∀ h : i < db0.slots.length, ∀ h2 : i < db2.slots.length,
    ((db0.slots.get ⟨i, h⟩).completionStatus ≠ none →
      db2.slots.get ⟨i, h2⟩ = db0.slots.get ⟨i, h⟩) ∧
    SlotNonMealEq (db2.slots.get ⟨i, h2⟩) (db0.slots.get ⟨i, h⟩) ∧
    ((db2.slots.get ⟨i, h2⟩).mealId ≠ (db0.slots.get ⟨i, h⟩).mealId →
      (db0.slots.get ⟨i, h⟩).completionStatus = none ∧
      ∃ day ∈ db0.instanceDays,
        day.date = (db0.slots.get ⟨i, h⟩).date ∧ day.isOverride = false ∧
        day.dayTemplateId.isSome = true))

/-- What regeneration guarantees about slot rows as rows (claim C10): no
row inserted or deleted, the `(date, position)` keys identical in order,
and every column except `meal_id` — in particular `is_adhoc`,
`is_manual_override`, the completion fields — unchanged. -/
def RegenSlotRowsPreserved (db0 db2 : DB) : Prop :=
  db2.slots.length = db0.slots.length ∧
  db2.slots.map (fun s => (s.date, s.position)) =
    db0.slots.map (fun s => (s.date, s.position)) ∧
  (∀ i, ∀ h : i < db0.slots.length, ∀ h2 : i < db2.slots.length,
    SlotNonMealEq (db2.slots.get ⟨i, h2⟩) (db0.slots.get ⟨i, h⟩))

/-- What a successful `reassign_slot` guarantees: the rotation ledger is
exactly as before (no entry read-modified, written or cleared), and the
targeted slot — as returned and as stored — carries the new meal, has
`is_manual_override = true`, had its completion status and timestamp
cleared when a completion status was present, and keeps its other
columns. -/
def ReassignSuccess (db : DB) (slotId mealId : Nat) (mealTypeId : Option Nat)
    (today : Int) : Prop :=
  (reassign_slot db slotId mealId mealTypeId today).2.2.rrStates = db.rrStates ∧
  (∀ s, get_slot_by_id db slotId = some s →
    ∃ s2, (reassign_slot db slotId mealId mealTypeId today).2.1 = some s2 ∧
      get_slot_by_id (reassign_slot db slotId mealId mealTypeId today).2.2 slotId
        = some s2 ∧
      s2.isManualOverride = true ∧
      s2.mealId = some mealId ∧
      (s.completionStatus ≠ none →
        s2.completionStatus = none ∧ s2.completedAt = none) ∧
      s2.id = s.id ∧ s2.weeklyPlanInstanceId = s.weeklyPlanInstanceId ∧
      s2.date = s.date ∧ s2.position = s.position ∧ s2.isAdhoc = s.isAdhoc ∧
      s2.actualMealId = s.actualMealId)

/-- What `create_adhoc_slot` does once the weekly instance of the week and
the meal row are found: it appends exactly one new slot whose position is
`coalesce(max(position), -1) + 1` over that instance-and-date's existing
slots, whose meal type is the meal's first linked meal type (or null),
ad-hoc, with null completion, and the rotation ledger is untouched. -/
def AdhocCreated (db : DB) (targetDate : Int) (mealId : Nat)
    (inst : WeeklyPlanInstance) : Prop :=
  ∃ s, create_adhoc_slot db targetDate mealId =
      (some s, { db with slots := db.slots ++ [s], nextSlotId := db.nextSlotId + 1 }) ∧
    s.weeklyPlanInstanceId = inst.id ∧
    s.date = targetDate ∧
    s.position = maxPositionOr ((db.slots.filter (fun t =>
      decide (t.weeklyPlanInstanceId = inst.id ∧ t.date = targetDate))).map
        (fun t => t.position)) (-1) + 1 ∧
    s.mealTypeId = ((db.mealToMealType.filter (fun p =>
      decide (p.1 = mealId))).head?).map (fun p => p.2) ∧
    s.isAdhoc = true ∧
    s.isManualOverride = false ∧
    s.completionStatus = none ∧
    s.completedAt = none ∧
    s.mealId = some mealId ∧
    (create_adhoc_slot db targetDate mealId).2.rrStates = db.rrStates

/-- The weekly instance of the week starting at day 0, used as concrete
input for the `create_adhoc_slot` theorems. -/
def instA : WeeklyPlanInstance :=
  { id := 1, weekPlanId := none, weekStartDate := 0, userId := 1 }

/-- A database with the weekly instance `instA` but no `InstanceDay` rows
at all, and a meal `7` linked to meal type `3`. -/
def dbA : DB :=
  { meals := [⟨7, 0⟩], mealToMealType := [(7, 3)], weekPlans := [],
    dayTemplates := [], instances := [instA], instanceDays := [], slots := [],
    rrStates := [], nextSlotId := 1, nextInstanceId := 2 }

/-- A one-slot day template, used as concrete input for the
`generate_weekly_plan` theorems. -/
def tG : DayTemplate :=
  { id := 6, slots := [⟨1, 4⟩] }

/-- A default week plan mapping Monday (weekday 0) to `tG`, used as
concrete input for the `generate_weekly_plan` theorems. -/
def wpG : WeekPlan :=
  { id := 1, userId := 1, isDefault := true, days := [⟨0, 6⟩] }

/-- A database with the default week plan `wpG`, the template `tG`, one
meal linked to meal type 4, and no weekly instances. -/
def dbG : DB :=
  { meals := [⟨9, 0⟩], mealToMealType := [(9, 4)], weekPlans := [wpG],
    dayTemplates := [tG], instances := [], instanceDays := [], slots := [],
    rrStates := [], nextSlotId := 1, nextInstanceId := 1 }

/-- The result of generating the week of day 0 for `dbG` from the default
week plan (the generation succeeds, so the fallback branch is dead). -/
def genOutG : WeeklyPlanInstance × DB :=
  match generate_weekly_plan dbG (some 0) none 1 0 0 with
  | .ok p => p
  | .error _ => (⟨0, none, 0, 0⟩, dbG)

/-- A two-slot day template, used as concrete input for the
`switch_day_template` theorems. -/
def templateS : DayTemplate :=
  { id := 5, slots := [⟨1, 4⟩, ⟨2, 4⟩] }

/-- An overridden day row for instance 1, day 3, used as concrete input for
the `switch_day_template` theorems. -/
def dayS : InstanceDay :=
  { weeklyPlanInstanceId := 1, date := 3, dayTemplateId := some 8,
    isOverride := true, overrideReason := some "x", updatedAt := 0 }

/-- A database with the day row `dayS`, one completed slot on that day, the
template `templateS`, and one meal linked to meal type 4. -/
def dbS : DB :=
  { meals := [⟨9, 0⟩], mealToMealType := [(9, 4)], weekPlans := [],
    dayTemplates := [templateS], instances := [], instanceDays := [dayS],
    slots := [{ id := 1, weeklyPlanInstanceId := 1, date := 3, position := 1,
                mealTypeId := some 4, mealId := some 9, isAdhoc := false,
                isManualOverride := false, completionStatus := some .followed,
                completedAt := some 2, actualMealId := none }],
    rrStates := [], nextSlotId := 2, nextInstanceId := 1 }

/-- The weekly instance of the week starting at day 0, owner 1, used as
concrete input for the regeneration theorems. -/
def instC2 : WeeklyPlanInstance :=
  { id := 1, weekPlanId := none, weekStartDate := 0, userId := 1 }

/-- A database for the regeneration theorems: a non-override, templated day
with one completed slot (meal 7) and one uncompleted slot (meal 7), where
the rotation for meal type 4 yields meal 9. -/
def dbC2 : DB :=
  { meals := [⟨9, 0⟩], mealToMealType := [(9, 4)], weekPlans := [],
    dayTemplates := [templateS], instances := [instC2],
    instanceDays := [{ weeklyPlanInstanceId := 1, date := 0,
                       dayTemplateId := some 5, isOverride := false,
                       overrideReason := none, updatedAt := 0 }],
    slots := [{ id := 1, weeklyPlanInstanceId := 1, date := 0, position := 1,
                mealTypeId := some 4, mealId := some 7, isAdhoc := false,
                isManualOverride := false, completionStatus := some .followed,
                completedAt := some 1, actualMealId := none },
              { id := 2, weeklyPlanInstanceId := 1, date := 0, position := 2,
                mealTypeId := some 4, mealId := some 7, isAdhoc := false,
                isManualOverride := false, completionStatus := none,
                completedAt := none, actualMealId := none }],
    rrStates := [], nextSlotId := 3, nextInstanceId := 2 }

/-- The result of regenerating `dbC2`'s week (the regeneration succeeds,
so the fallback branch is dead). -/
def regenOutC2 : WeeklyPlanInstance × DB :=
  match regenerate_weekly_plan dbC2 0 1 with
  | .ok p => p
  | .error _ => (instC2, dbC2)

/-- A database for the manual-override regeneration theorem: its single
slot is uncompleted, `is_manual_override = true`, manually set to meal 7,
on a non-override templated day; the rotation for meal type 4 yields
meal 9. -/
def dbM : DB :=
  { meals := [⟨9, 0⟩], mealToMealType := [(9, 4)], weekPlans := [],
    dayTemplates := [{ id := 5, slots := [⟨1, 4⟩] }], instances := [instC2],
    instanceDays := [{ weeklyPlanInstanceId := 1, date := 0,
                       dayTemplateId := some 5, isOverride := false,
                       overrideReason := none, updatedAt := 0 }],
    slots := [{ id := 1, weeklyPlanInstanceId := 1, date := 0, position := 1,
                mealTypeId := some 4, mealId := some 7, isAdhoc := false,
                isManualOverride := true, completionStatus := none,
                completedAt := none, actualMealId := none }],
    rrStates := [], nextSlotId := 2, nextInstanceId := 2 }

/-- The result of regenerating `dbM`'s week (the regeneration succeeds, so
the fallback branch is dead). -/
def regenOutM : WeeklyPlanInstance × DB :=
  match regenerate_weekly_plan dbM 0 1 with
  | .ok p => p
  | .error _ => (instC2, dbM)

/-- A completed slot dated day 5, used as concrete input for the
`reassign_slot` theorems. -/
def slotR : Slot :=
  { id := 1, weeklyPlanInstanceId := 1, date := 5, position := 1,
    mealTypeId := some 2, mealId := some 7, isAdhoc := false,
    isManualOverride := false, completionStatus := some .skipped,
    completedAt := some 3, actualMealId := none }

/-- A database holding `slotR`, a meal `9` linked to meal type `2`, and a
non-empty rotation ledger. -/
def dbR : DB :=
  { meals := [⟨9, 0⟩], mealToMealType := [(9, 2)], weekPlans := [],
    dayTemplates := [], instances := [], instanceDays := [], slots := [slotR],
    rrStates := [(2, { lastMealId := some 9 })], nextSlotId := 2,
    nextInstanceId := 1 }

/-- A completed slot whose completion recorded a substituted meal
(`actual_meal_id = 5`), used as concrete input for the `uncomplete_slot`
theorems. -/
def slotU : Slot :=
  { id := 1, weeklyPlanInstanceId := 1, date := 0, position := 1,
    mealTypeId := some 1, mealId := some 2, isAdhoc := false,
    isManualOverride := false, completionStatus := some .followed,
    completedAt := some 10, actualMealId := some 5 }

/-- A one-slot database holding `slotU`. -/
def dbU : DB :=
  { meals := [], mealToMealType := [], weekPlans := [], dayTemplates := [],
    instances := [], instanceDays := [], slots := [slotU], rrStates := [],
    nextSlotId := 2, nextInstanceId := 1 }

/-! ### Helper lemmas about the rotation core -/

theorem reset_round_robin_state_eq_none (st : Option RRState) :
    reset_round_robin_state st = none := by
  cases st <;> rfl

theorem findLastUsedIndex_of_get (meals : List Meal)
    (hnd : (meals.map Meal.id).Nodup) (i : Nat) (hi : i < meals.length) :
    findLastUsedIndex meals (meals.get ⟨i, hi⟩).id = (i : Int) := by
  induction meals generalizing i with
  | nil => simp at hi
  | cons m rest ih =>
    rw [List.map_cons, List.nodup_cons] at hnd
    cases i with
    | zero => simp [findLastUsedIndex]
    | succ j =>
      have hj : j < rest.length := Nat.lt_of_succ_lt_succ hi
      have hget : (m :: rest).get ⟨j + 1, hi⟩ = rest.get ⟨j, hj⟩ := rfl
      have hne : ¬ m.id = (rest.get ⟨j, hj⟩).id := by
        intro h
        exact hnd.1 (h ▸ List.mem_map_of_mem Meal.id (rest.get_mem j hj))
      rw [hget, findLastUsedIndex]
      simp only [hne, if_false, ih hnd.2 j hj]
      have : ¬ ((j : Int) < 0) := by omega
      simp only [this, if_false]
      omega

theorem findLastUsedIndex_of_not_mem (meals : List Meal) (lastId : Nat)
    (h : ∀ m ∈ meals, m.id ≠ lastId) :
    findLastUsedIndex meals lastId = -1 := by
  induction meals with
  | nil => rfl
  | cons m rest ih =>
    have hm := h m (List.mem_cons_self m rest)
    rw [findLastUsedIndex]
    simp [hm, ih (fun x hx => h x (List.mem_cons_of_mem m hx))]

theorem getD_eq_get_of_lt (meals : List Meal) (dflt : Meal) (i : Nat)
    (hi : i < meals.length) : meals.getD i dflt = meals.get ⟨i, hi⟩ := by
  simp [List.getD_eq_getElem?_getD, List.getElem?_eq_getElem hi]

theorem next_meal_from_none (m : Meal) (rest : List Meal) :
    get_next_meal_from_meals (m :: rest) none =
      (some m, some { lastMealId := some m.id }) := by
  rw [get_next_meal_from_meals]
  by_cases h : rest = [] <;> simp [h, update_round_robin_state]

theorem next_meal_from_idx (meals : List Meal) (dflt : Meal)
    (hnd : (meals.map Meal.id).Nodup) (i : Nat) (hi : i < meals.length) :
    get_next_meal_from_meals meals
        (some { lastMealId := some (meals.getD i dflt).id }) =
      (some (meals.getD ((i + 1) % meals.length) dflt),
       some { lastMealId := some (meals.getD ((i + 1) % meals.length) dflt).id }) := by
  have hi1 : (i + 1) % meals.length < meals.length := Nat.mod_lt _ (by omega)
  match meals, hi with
  | m :: rest, hi =>
    by_cases hr : rest = []
    · subst hr
      have h0 : i = 0 := by simpa using hi
      subst h0
      simp [get_next_meal_from_meals, update_round_robin_state, List.getD]
    · rw [get_next_meal_from_meals]
      simp only [hr, if_false]
      rw [getD_eq_get_of_lt _ _ i hi, findLastUsedIndex_of_get _ hnd i hi]
      have hcast : (((i : Int) + 1) % ((m :: rest).length : Int)).toNat
          = (i + 1) % (m :: rest).length := by
        have h1 : ((i : Int) + 1) = ((i + 1 : Nat) : Int) := by push_cast; ring
        rw [h1, ← Int.natCast_mod, Int.toNat_natCast]
      rw [hcast, getD_eq_get_of_lt _ m _ hi1, getD_eq_get_of_lt _ dflt _ hi1]
      simp [update_round_robin_state]

theorem runNextMeal_from_idx (meals : List Meal) (dflt : Meal)
    (hnd : (meals.map Meal.id).Nodup) :
    ∀ (t i : Nat), i < meals.length →
      runNextMeal meals (some { lastMealId := some (meals.getD i dflt).id }) t =
        (List.range t).map
          (fun j => some (meals.getD ((i + 1 + j) % meals.length) dflt)) := by
  intro t
  induction t with
  | zero => intro i hi; simp [runNextMeal]
  | succ t ih =>
    intro i hi
    have hi1 : (i + 1) % meals.length < meals.length := Nat.mod_lt _ (by omega)
    have hstep := next_meal_from_idx meals dflt hnd i hi
    simp only [runNextMeal, hstep]
    rw [ih ((i + 1) % meals.length) hi1]
    rw [List.range_succ_eq_map, List.map_cons, List.map_map]
    have hhead : (i + 1) % meals.length = (i + 1 + 0) % meals.length := by
      rw [Nat.add_zero]
    have htail : (fun j => some (meals.getD
          (((i + 1) % meals.length + 1 + j) % meals.length) dflt)) =
        (fun j => some (meals.getD ((i + 1 + (j + 1)) % meals.length) dflt)) := by
      funext j
      have h2 : ((i + 1) % meals.length + 1 + j) % meals.length
          = (i + 1 + (j + 1)) % meals.length := by
        rw [Nat.add_assoc ((i + 1) % meals.length) 1 j, Nat.mod_add_mod]
        have h3 : i + 1 + (1 + j) = i + 1 + (j + 1) := by omega
        rw [h3]
      rw [h2]
    rw [htail]
    rw [← hhead]
    rfl

theorem runNextMeal_from_reset (meals : List Meal) (dflt : Meal)
    (hnd : (meals.map Meal.id).Nodup) (hne : meals ≠ []) (t : Nat) :
    runNextMeal meals none t =
      (List.range t).map (fun j => some (meals.getD (j % meals.length) dflt)) := by
  cases t with
  | zero => simp [runNextMeal]
  | succ t =>
    obtain ⟨m, rest, rfl⟩ := List.exists_cons_of_ne_nil hne
    have hstep := next_meal_from_none m rest
    simp only [runNextMeal, hstep]
    have hidx := runNextMeal_from_idx (m :: rest) dflt hnd t 0 (by simp)
    rw [show (m :: rest).getD 0 dflt = m from rfl] at hidx
    rw [hidx]
    rw [List.range_succ_eq_map, List.map_cons, List.map_map]
    have hzero : (0 : Nat) % (m :: rest).length = 0 := by
      apply Nat.mod_eq_of_lt; simp
    rw [hzero]
    have htail : (fun j => some ((m :: rest).getD
          ((0 + 1 + j) % (m :: rest).length) dflt)) =
        (fun j => some ((m :: rest).getD
          ((j + 1) % (m :: rest).length) dflt)) ∘ id := by
      funext j
      have h2 : 0 + 1 + j = j + 1 := by omega
      simp [h2]
    have hsucc : ((fun j => some ((m :: rest).getD
          (j % (m :: rest).length) dflt)) ∘ Nat.succ) =
        (fun j => some ((m :: rest).getD
          ((j + 1) % (m :: rest).length) dflt)) := by
      funext j
      rfl
    rw [hsucc, htail]
    rfl

theorem countP_mod_eq_range (N j0 k : Nat) (hj0 : j0 < N) :
    (List.range (k * N)).countP (fun j => decide (j % N = j0)) = k := by
  induction k with
  | zero => simp
  | succ k ih =>
    have hmul : (k + 1) * N = k * N + N := by ring
    rw [hmul, List.range_add, List.countP_append, ih, List.countP_map]
    have hcong : ∀ x ∈ List.range N,
        ((fun j => decide (j % N = j0)) ∘ fun x => k * N + x) x = true ↔
          (fun x => decide (x = j0)) x = true := by
      intro x hx
      have hxN : x < N := List.mem_range.mp hx
      have h1 : (k * N + x) % N = x := by
        rw [Nat.mul_comm k N, Nat.mul_add_mod]
        exact Nat.mod_eq_of_lt hxN
      simp [Function.comp, h1]
    rw [List.countP_congr hcong]
    have hcnt : (List.range N).countP (fun x => decide (x = j0))
        = (List.range N).count j0 := by
      rw [List.count_eq_countP]
      apply List.countP_congr
      intro x _
      simp [decide_eq_true_iff, beq_iff_eq]
    rw [hcnt, List.count_eq_one_of_mem (List.nodup_range N) (List.mem_range.mpr hj0)]

theorem peek_eq_next_fst (meals : List Meal) (state : Option RRState) :
    peek_next_meal_from_meals meals state =
      (get_next_meal_from_meals meals state).1 := by
  cases meals with
  | nil => rfl
  | cons m rest =>
    simp only [peek_next_meal_from_meals, get_next_meal_from_meals]
    by_cases hr : rest = []
    · simp [hr]
    · simp only [hr, if_false]
      cases state with
      | none => rfl
      | some s =>
        obtain ⟨ls⟩ := s
        cases ls <;> rfl

/-! ### Claim theorems: the Rotation Selector (C1, C3, C4) -/

/-- **C1** (rotation fairness): for any candidate list of `N ≥ 1` meals with
distinct ids — candidate lists are rows of the `meal` table ordered by
`(created_at, id)`, so their ids are distinct primary keys — a run of
exactly `k * N` consecutive `nextItem` calls that starts from a freshly
reset ledger and sees the candidate list unchanged throughout selects every
candidate exactly `k` times. -/
theorem rotation_fairness (meals : List Meal) (st₀ : Option RRState) (k : Nat)
    (c : Meal) (hnd : (meals.map Meal.id).Nodup) (hc : c ∈ meals) :
    (runNextMeal meals (reset_round_robin_state st₀)
      (k * meals.length)).count (some c) = k := by
  have hne : meals ≠ [] := List.ne_nil_of_mem hc
  have hN : 0 < meals.length := List.length_pos.mpr hne
  rw [reset_round_robin_state_eq_none st₀]
  rw [runNextMeal_from_reset meals c hnd hne]
  obtain ⟨⟨j0, hj0⟩, hcget⟩ := List.mem_iff_get.mp hc
  have hndm : meals.Nodup := List.Nodup.of_map Meal.id hnd
  rw [List.count_eq_countP, List.countP_map]
  have hcong : ∀ x ∈ List.range (k * meals.length),
      ((fun a => a == some c) ∘ fun j =>
        some (meals.getD (j % meals.length) c)) x = true ↔
      (fun j => decide (j % meals.length = j0)) x = true := by
    intro x _
    have hxN : x % meals.length < meals.length := Nat.mod_lt _ hN
    simp only [Function.comp, beq_iff_eq, Option.some_inj, decide_eq_true_iff]
    rw [getD_eq_get_of_lt meals c _ hxN]
    constructor
    · intro h
      have := hndm.get_inj_iff.mp (h.trans hcget.symm)
      exact congrArg Fin.val this
    · intro h
      subst h
      exact hcget
  rw [List.countP_congr hcong]
  exact countP_mod_eq_range meals.length j0 k hj0

/-- Witness for `rotation_fairness`: two candidates, two full cycles, the
first candidate is selected exactly twice. -/
theorem rotation_fairness_witness :
    ((([⟨1, 0⟩, ⟨2, 1⟩] : List Meal).map Meal.id).Nodup ∧
      (⟨1, 0⟩ : Meal) ∈ ([⟨1, 0⟩, ⟨2, 1⟩] : List Meal)) ∧
    (runNextMeal [⟨1, 0⟩, ⟨2, 1⟩] (reset_round_robin_state none)
      (2 * ([⟨1, 0⟩, ⟨2, 1⟩] : List Meal).length)).count (some ⟨1, 0⟩) = 2 :=
  ⟨⟨by decide, by decide⟩,
    rotation_fairness [⟨1, 0⟩, ⟨2, 1⟩] none 2 ⟨1, 0⟩ (by decide) (by decide)⟩

/-- **C3** (rotation graceful degradation): with `N ≥ 2` candidates, if the
ledger pointer is non-null but no candidate carries its meal id (the
pointed-to meal was unlinked or deleted), both `nextItem` and
`peekNextItem` return `candidate[0]`: the lookup yields `-1`, so the next
index is `(-1 + 1) % N = 0` and rotation restarts instead of erroring. -/
theorem rotation_graceful_degradation (meals : List Meal) (lastId : Nat)
    (hlen : 2 ≤ meals.length) (habs : ∀ m ∈ meals, m.id ≠ lastId) :
    (get_next_meal_from_meals meals
        (some { lastMealId := some lastId })).1 = meals.head? ∧
    peek_next_meal_from_meals meals
        (some { lastMealId := some lastId }) = meals.head? := by
  match meals, hlen with
  | m :: m2 :: rest, _ =>
    have hr : m2 :: rest ≠ [] := by simp
    have hidx := findLastUsedIndex_of_not_mem (m :: m2 :: rest) lastId habs
    rw [get_next_meal_from_meals, peek_next_meal_from_meals]
    simp only [hr, if_false, hidx]
    constructor <;> rfl

/-- Witness for `rotation_graceful_degradation`: two candidates, a ledger
pointing at the absent meal id `5`; both calls return the first
candidate. -/
theorem rotation_graceful_degradation_witness :
    ((2 ≤ ([⟨1, 0⟩, ⟨2, 1⟩] : List Meal).length) ∧
      (∀ m ∈ ([⟨1, 0⟩, ⟨2, 1⟩] : List Meal), m.id ≠ 5)) ∧
    ((get_next_meal_from_meals [⟨1, 0⟩, ⟨2, 1⟩]
        (some { lastMealId := some 5 })).1 =
      ([⟨1, 0⟩, ⟨2, 1⟩] : List Meal).head? ∧
      peek_next_meal_from_meals [⟨1, 0⟩, ⟨2, 1⟩]
        (some { lastMealId := some 5 }) =
      ([⟨1, 0⟩, ⟨2, 1⟩] : List Meal).head?) :=
  ⟨⟨by decide, by decide⟩,
    rotation_graceful_degradation [⟨1, 0⟩, ⟨2, 1⟩] 5 (by decide) (by decide)⟩

/-- **C4** (peek agrees with next, and is pure): for every database state
and meal type, `peek_next_meal_for_type` returns exactly the meal that
`get_next_meal_for_type` would return from the same state.  That the peek
leaves the rotation ledger and all other state unchanged holds by
construction of the embedding: the source function issues only SELECT
statements, so its embedding takes the `DB` and returns no new one. -/
theorem peek_agrees_with_next (db : DB) (mealTypeId : Nat) :
    peek_next_meal_for_type db mealTypeId =
      (get_next_meal_for_type db mealTypeId).1 := by
  rw [peek_next_meal_for_type, get_next_meal_for_type]
  rw [peek_eq_next_fst]
  cases h : get_next_meal_from_meals (get_meals_for_type db mealTypeId)
      (get_round_robin_state db mealTypeId) with
  | mk r st => cases r <;> simp

/-! ### Claim theorems: slot completion (C9) -/

/-- **C9, counterexample**: `uncomplete_slot` on the completed slot `slotU`
(whose `actual_meal_id` is `5`) succeeds and clears status and timestamp,
but the `actual_meal_id` of the returned row is still `5`, not `NULL` —
the code never assigns `slot.actual_meal_id`, contradicting the claim that
the actual-item reference is set to null. -/
theorem uncomplete_slot_keeps_actual_meal :
    (uncomplete_slot dbU 1).1.map Slot.actualMealId = some (some 5) ∧
    (uncomplete_slot dbU 1).1.map Slot.completionStatus = some none ∧
    (uncomplete_slot dbU 1).1.map Slot.completedAt = some none := by
  refine ⟨rfl, rfl, rfl⟩

/-- **C9, amended**: `uncomplete_slot` fails (returning `none` and leaving
the database untouched) exactly when the slot does not exist; otherwise it
sets the slot's completion status and completion timestamp to null and
leaves every other field of the slot — including the actual-item
reference — and all other state unchanged. -/
theorem uncomplete_slot_spec (db : DB) (slotId : Nat) :
    (get_slot_by_id db slotId = none →
      uncomplete_slot db slotId = (none, db)) ∧
    (∀ s, get_slot_by_id db slotId = some s → UncompleteFound db slotId s) := by
  constructor
  · intro hnone
    rw [uncomplete_slot, hnone]
  · intro s hs
    have hout : uncomplete_slot db slotId =
        (some { s with completionStatus := none, completedAt := none },
         { db with slots := updateSlotById db.slots slotId (fun t => { t with completionStatus := none, completedAt := none }) }) := by
      rw [uncomplete_slot, hs]
    refine ⟨by rw [hout], ?_, ?_, by rw [hout], by rw [hout], by rw [hout]⟩
    · rw [hout]
      simp [updateSlotById]
    · intro i h h2
      have hslots : (uncomplete_slot db slotId).2.slots =
          updateSlotById db.slots slotId (fun t => { t with completionStatus := none, completedAt := none }) := by
        rw [hout]
      have hget : (uncomplete_slot db slotId).2.slots.get ⟨i, h2⟩ =
          if (db.slots.get ⟨i, h⟩).id = slotId then
            { db.slots.get ⟨i, h⟩ with completionStatus := none, completedAt := none }
          else db.slots.get ⟨i, h⟩ := by
        rw [List.get_of_eq hslots ⟨i, h2⟩]
        simp [updateSlotById]
      by_cases hid : (db.slots.get ⟨i, h⟩).id = slotId
      · rw [hget, if_pos hid]
        refine ⟨?_, fun _ => ⟨rfl, rfl⟩, fun hne => absurd hid hne⟩
        unfold SlotNonCompletionEq
        exact ⟨rfl, rfl, rfl, rfl, rfl, rfl, rfl, rfl, rfl⟩
      · rw [hget, if_neg hid]
        refine ⟨?_, fun hcon => absurd hcon hid, fun _ => rfl⟩
        unfold SlotNonCompletionEq
        exact ⟨rfl, rfl, rfl, rfl, rfl, rfl, rfl, rfl, rfl⟩

/-- Witness for `uncomplete_slot_spec` at the concrete database `dbU`. -/
theorem uncomplete_slot_spec_witness :
    get_slot_by_id dbU 1 = some slotU ∧ UncompleteFound dbU 1 slotU :=
  ⟨rfl, (uncomplete_slot_spec dbU 1).2 slotU rfl⟩

/-! ### Claim theorems: slot reassignment (C7) -/

theorem reassignUpdate_id_eq (mealId : Nat) (mealTypeId : Option Nat) (s : Slot) :
    (reassignUpdate mealId mealTypeId s).id = s.id := by
  unfold reassignUpdate
  cases mealTypeId <;> by_cases h : s.completionStatus = none <;> simp [h]

theorem reassignUpdate_fields (mealId : Nat) (mealTypeId : Option Nat) (s : Slot) :
    (reassignUpdate mealId mealTypeId s).isManualOverride = true ∧
    (reassignUpdate mealId mealTypeId s).mealId = some mealId ∧
    (s.completionStatus ≠ none →
      (reassignUpdate mealId mealTypeId s).completionStatus = none ∧
      (reassignUpdate mealId mealTypeId s).completedAt = none) ∧
    (reassignUpdate mealId mealTypeId s).weeklyPlanInstanceId
      = s.weeklyPlanInstanceId ∧
    (reassignUpdate mealId mealTypeId s).date = s.date ∧
    (reassignUpdate mealId mealTypeId s).position = s.position ∧
    (reassignUpdate mealId mealTypeId s).isAdhoc = s.isAdhoc ∧
    (reassignUpdate mealId mealTypeId s).actualMealId = s.actualMealId := by
  unfold reassignUpdate
  cases mealTypeId <;> by_cases h : s.completionStatus = none <;> simp [h]

theorem find_slot_updateSlotById (slots : List Slot) (slotId : Nat)
    (f : Slot → Slot) (hf : ∀ s, (f s).id = s.id) :
    (updateSlotById slots slotId f).find? (fun s => decide (s.id = slotId)) =
      (slots.find? (fun s => decide (s.id = slotId))).map f := by
  induction slots with
  | nil => rfl
  | cons a l ih =>
    by_cases ha : a.id = slotId
    · have hfa : (f a).id = slotId := by rw [hf a]; exact ha
      simp [updateSlotById, ha, List.find?_cons_of_pos, hfa]
    · have : ¬ ((f a).id = slotId) := by rw [hf a]; exact ha
      simp only [updateSlotById, List.map_cons, if_neg ha]
      rw [List.find?_cons_of_neg, List.find?_cons_of_neg]
      · exact ih
      · simp [ha]
      · simp [ha]

/-- **C7**: on every successful `reassign_slot` the rotation ledger is left
exactly as before the call (the operation never touches
`round_robin_state`), the slot's completion status and timestamp are null
afterwards whenever a completion status was present before, and the slot's
`is_manual_override` flag is set. -/
theorem reassign_slot_ledger_and_completion (db : DB) (slotId mealId : Nat)
    (mealTypeId : Option Nat) (today : Int)
    (hsucc : (reassign_slot db slotId mealId mealTypeId today).1 = none) :
    ReassignSuccess db slotId mealId mealTypeId today := by
  cases hfind : get_slot_by_id db slotId with
  | none =>
    rw [reassign_slot, hfind] at hsucc
    simp at hsucc
  | some slot =>
    by_cases hpast : slot.date < today
    · rw [reassign_slot, hfind] at hsucc
      simp [hpast] at hsucc
    · cases hmeal : db.meals.find? (fun m => decide (m.id = mealId)) with
      | none =>
        rw [reassign_slot, hfind] at hsucc
        simp [hpast, hmeal] at hsucc
      | some mm =>
        by_cases hmis : (match (match mealTypeId with
            | some t => some t
            | none => slot.mealTypeId) with
          | some t => decide ((mealId, t) ∉ db.mealToMealType)
          | none => false) = true
        · rw [reassign_slot, hfind] at hsucc
          simp only [if_neg hpast, hmeal, if_pos hmis] at hsucc
          exact absurd hsucc (by simp)
        · have hout : reassign_slot db slotId mealId mealTypeId today =
              (none, some (reassignUpdate mealId mealTypeId slot),
               { db with slots := updateSlotById db.slots slotId (reassignUpdate mealId mealTypeId) }) := by
            rw [reassign_slot, hfind]
            simp only [if_neg hpast, hmeal, if_neg hmis]
          constructor
          · rw [hout]
          · intro s hs
            have hslot : s = slot := by
              rw [hfind] at hs
              exact (Option.some_inj.mp hs).symm
            subst hslot
            refine ⟨reassignUpdate mealId mealTypeId s, by rw [hout], ?_, ?_⟩
            · rw [hout]
              show (updateSlotById db.slots slotId (reassignUpdate mealId mealTypeId)).find?
                  (fun t => decide (t.id = slotId)) = _
              rw [find_slot_updateSlotById db.slots slotId _
                (reassignUpdate_id_eq mealId mealTypeId)]
              rw [show db.slots.find? (fun t => decide (t.id = slotId))
                = get_slot_by_id db slotId from rfl, hfind]
              rfl
            · obtain ⟨h1, h2, h3, h4, h5, h6, h7, h8⟩ :=
                reassignUpdate_fields mealId mealTypeId s
              exact ⟨h1, h2, h3, reassignUpdate_id_eq mealId mealTypeId s,
                h4, h5, h6, h7, h8⟩

/-- Witness for `reassign_slot_ledger_and_completion`: reassigning the
completed slot `slotR` to meal `9` succeeds; the ledger survives and the
completion fields are cleared. -/
theorem reassign_slot_ledger_and_completion_witness :
    (reassign_slot dbR 1 9 none 5).1 = none ∧ ReassignSuccess dbR 1 9 none 5 :=
  ⟨by decide, reassign_slot_ledger_and_completion dbR 1 9 none 5 (by decide)⟩

/-! ### Claim theorems: ad-hoc slots (C8) -/

/-- **C8, counterexample**: in `dbA` the weekly instance of the week
containing day 2 exists but there is no `InstanceDay` row for day 2 (the
table is empty), and the meal exists; `create_adhoc_slot` nevertheless
succeeds — the code never requires an existing `InstanceDay`, only the
weekly instance (and the meal). -/
theorem create_adhoc_slot_no_instance_day :
    dbA.instanceDays = [] ∧
    get_instance_day dbA 1 2 = none ∧
    (create_adhoc_slot dbA 2 7).1.isSome = true := by
  refine ⟨rfl, rfl, by decide⟩

/-- **C8, amended**: `create_adhoc_slot` fails, creating nothing, when the
weekly instance for the week containing the date is absent or the item is
absent (it does not require an `InstanceDay` for the date); on success it
creates one slot at position `coalesce(max existing position for that
date, -1) + 1`, with the item's first linked category (or null),
`is_adhoc = true`, null completion, and without calling the rotation
selector (the ledger is untouched). -/
theorem create_adhoc_slot_spec (db : DB) (targetDate : Int) (mealId : Nat) :
    (db.instances.find? (fun i =>
        decide (i.weekStartDate = get_week_start_date targetDate)) = none →
      create_adhoc_slot db targetDate mealId = (none, db)) ∧
    (db.meals.find? (fun m => decide (m.id = mealId)) = none →
      create_adhoc_slot db targetDate mealId = (none, db)) ∧
    (∀ inst, db.instances.find? (fun i =>
        decide (i.weekStartDate = get_week_start_date targetDate)) = some inst →
      ∀ mm, db.meals.find? (fun m => decide (m.id = mealId)) = some mm →
        AdhocCreated db targetDate mealId inst) := by
  refine ⟨?_, ?_, ?_⟩
  · intro h
    rw [create_adhoc_slot, h]
  · intro h
    cases hi : db.instances.find? (fun i =>
        decide (i.weekStartDate = get_week_start_date targetDate)) with
    | none => rw [create_adhoc_slot, hi]
    | some inst => rw [create_adhoc_slot, hi, h]
  · intro inst hinst mm hmeal
    refine ⟨{ id := db.nextSlotId, weeklyPlanInstanceId := inst.id,
              date := targetDate,
              position := maxPositionOr ((db.slots.filter (fun t =>
                decide (t.weeklyPlanInstanceId = inst.id ∧
                  t.date = targetDate))).map (fun t => t.position)) (-1) + 1,
              mealTypeId := ((db.mealToMealType.filter (fun p =>
                decide (p.1 = mealId))).head?).map (fun p => p.2),
              mealId := some mealId, isAdhoc := true,
              isManualOverride := false, completionStatus := none,
              completedAt := none, actualMealId := none },
      ?_, rfl, rfl, rfl, rfl, rfl, rfl, rfl, rfl, rfl, ?_⟩
    · rw [create_adhoc_slot, hinst, hmeal]
    · rw [create_adhoc_slot, hinst, hmeal]

/-- Witness for `create_adhoc_slot_spec` at `dbA`, day 2, meal 7. -/
theorem create_adhoc_slot_spec_witness :
    (dbA.instances.find? (fun i =>
        decide (i.weekStartDate = get_week_start_date 2)) = some instA ∧
      dbA.meals.find? (fun m => decide (m.id = 7)) = some ⟨7, 0⟩) ∧
    AdhocCreated dbA 2 7 instA :=
  ⟨⟨by decide, by decide⟩,
    (create_adhoc_slot_spec dbA 2 7).2.2 instA (by decide) ⟨7, 0⟩ (by decide)⟩

/-! ### Helper lemmas about the weekly-plan operations -/

theorem update_round_robin_state_db_shape (db : DB) (mealTypeId mealId : Nat) :
    ∃ rr, update_round_robin_state_db db mealTypeId mealId =
      { db with rrStates := rr } := by
  unfold update_round_robin_state_db
  cases get_round_robin_state db mealTypeId <;> exact ⟨_, rfl⟩

theorem get_next_meal_for_type_shape (db : DB) (mealTypeId : Nat) :
    ∃ rr, (get_next_meal_for_type db mealTypeId).2 = { db with rrStates := rr } := by
  rw [get_next_meal_for_type]
  cases get_next_meal_from_meals (get_meals_for_type db mealTypeId)
      (get_round_robin_state db mealTypeId) with
  | mk r st =>
    cases r with
    | none => exact ⟨db.rrStates, rfl⟩
    | some m => exact update_round_robin_state_db_shape db mealTypeId m.id

theorem get_day_template_by_id_congr (db1 db2 : DB) (templateId : Nat)
    (h : db1.dayTemplates = db2.dayTemplates) :
    get_day_template_by_id db1 templateId = get_day_template_by_id db2 templateId := by
  rw [get_day_template_by_id, get_day_template_by_id, h]

theorem genSlotStep_shape (instanceId : Nat) (targetDate : Int) (db : DB)
    (ts : DayTemplateSlot) :
    ∃ mid rr, genSlotStep instanceId targetDate db ts =
      { db with
        slots := db.slots ++
          [{ id := db.nextSlotId, weeklyPlanInstanceId := instanceId,
             date := targetDate, position := ts.position,
             mealTypeId := some ts.mealTypeId, mealId := mid,
             isAdhoc := false, isManualOverride := false,
             completionStatus := none, completedAt := none,
             actualMealId := none }],
        rrStates := rr, nextSlotId := db.nextSlotId + 1 } := by
  obtain ⟨rr, hrr⟩ := get_next_meal_for_type_shape db ts.mealTypeId
  refine ⟨(get_next_meal_for_type db ts.mealTypeId).1.map Meal.id, rr, ?_⟩
  rw [genSlotStep, hrr]

theorem generate_slots_for_day_spec (instanceId : Nat) (targetDate : Int) :
    ∀ (tslots : List DayTemplateSlot) (db : DB),
      ∃ extra rr nid,
        generate_slots_for_day db instanceId targetDate tslots =
          { db with slots := db.slots ++ extra, rrStates := rr,
                    nextSlotId := nid } ∧
        extra.length = tslots.length ∧
        extra.map Slot.position = tslots.map DayTemplateSlot.position ∧
        extra.map Slot.mealTypeId = tslots.map (fun ts => some ts.mealTypeId) ∧
        (∀ s ∈ extra, s.weeklyPlanInstanceId = instanceId ∧
          s.date = targetDate ∧ s.completionStatus = none ∧
          s.completedAt = none ∧ s.isAdhoc = false ∧
          s.isManualOverride = false ∧ s.actualMealId = none) := by
  intro tslots
  induction tslots with
  | nil =>
    intro db
    refine ⟨[], db.rrStates, db.nextSlotId, ?_, rfl, rfl, rfl, by simp⟩
    simp [generate_slots_for_day]
  | cons ts tss ih =>
    intro db
    obtain ⟨mid, rr0, hstep⟩ := genSlotStep_shape instanceId targetDate db ts
    have hfold : generate_slots_for_day db instanceId targetDate (ts :: tss) =
        generate_slots_for_day (genSlotStep instanceId targetDate db ts)
          instanceId targetDate tss := rfl
    obtain ⟨extra, rr, nid, heq, hlen, hpos, hmt, hmem⟩ :=
      ih (genSlotStep instanceId targetDate db ts)
    rw [hstep] at heq
    refine ⟨{ id := db.nextSlotId, weeklyPlanInstanceId := instanceId,
              date := targetDate, position := ts.position,
              mealTypeId := some ts.mealTypeId, mealId := mid,
              isAdhoc := false, isManualOverride := false,
              completionStatus := none, completedAt := none,
              actualMealId := none } :: extra, rr, nid, ?_, ?_, ?_, ?_, ?_⟩
    · rw [hfold, hstep, heq]
      simp
    · simp [hlen]
    · simp [hpos]
    · simp [hmt]
    · intro s hs
      cases hs with
      | head => exact ⟨rfl, rfl, rfl, rfl, rfl, rfl, rfl⟩
      | tail _ hmemtail => exact hmem s hmemtail

/-! ### Claim theorems: template switch (C5) -/

/-- **C5**: given an existing `InstanceDay` for the date and a valid new
template, `switch_day_template` deletes all existing slots for that
instance and date — completed ones included — rewrites the day row to the
new template with `is_override := false` and the reason cleared, and
appends one fresh slot per new-template slot definition, in position order,
each created through the rotation selector with null completion. -/
theorem switch_day_template_spec (db : DB) (instanceId : Nat)
    (targetDate : Int) (newTemplateId : Nat) (now : Nat)
    (day : InstanceDay) (template : DayTemplate)
    (hday : get_instance_day db instanceId targetDate = some day)
    (htmpl : get_day_template_by_id db newTemplateId = some template) :
    SwitchSuccess db instanceId targetDate newTemplateId now template := by
  have hsort : (sortTemplateSlots template.slots).length = template.slots.length :=
    (List.perm_insertionSort templateSlotOrder template.slots).length_eq
  obtain ⟨extra, rr, nid, heq, hlen, hpos, hmt, hmem⟩ :=
    generate_slots_for_day_spec instanceId targetDate
      (sortTemplateSlots template.slots)
      { db with
        slots := db.slots.filter (fun s =>
          decide (¬(s.weeklyPlanInstanceId = instanceId ∧ s.date = targetDate))),
        instanceDays := db.instanceDays.map (fun d =>
          if d.weeklyPlanInstanceId = instanceId ∧ d.date = targetDate then
            { d with dayTemplateId := some newTemplateId, isOverride := false,
                     overrideReason := none, updatedAt := now }
          else d) }
  refine ⟨generate_slots_for_day
      { db with
        slots := db.slots.filter (fun s =>
          decide (¬(s.weeklyPlanInstanceId = instanceId ∧ s.date = targetDate))),
        instanceDays := db.instanceDays.map (fun d =>
          if d.weeklyPlanInstanceId = instanceId ∧ d.date = targetDate then
            { d with dayTemplateId := some newTemplateId, isOverride := false,
                     overrideReason := none, updatedAt := now }
          else d) }
      instanceId targetDate (sortTemplateSlots template.slots),
    extra, ?_, ?_, ?_, ?_, hpos, hmt, ?_⟩
  · rw [switch_day_template, hday, htmpl]
  · rw [heq]
  · rw [heq]
  · rw [hlen, hsort]
  · intro s hs
    obtain ⟨h1, h2, h3, h4, h5, h6, _⟩ := hmem s hs
    exact ⟨h1, h2, h3, h4, h5, h6⟩

/-- Witness for `switch_day_template_spec`: switching the overridden day 3
of `dbS` (which carries one completed slot) to `templateS`. -/
theorem switch_day_template_spec_witness :
    (get_instance_day dbS 1 3 = some dayS ∧
      get_day_template_by_id dbS 5 = some templateS) ∧
    SwitchSuccess dbS 1 3 5 77 templateS :=
  ⟨⟨by decide, by decide⟩,
    switch_day_template_spec dbS 1 3 5 77 dayS templateS (by decide) (by decide)⟩

/-! ### Helper lemmas about generation -/

theorem mappedTemplateSlotCount_congr (db1 db2 : DB)
    (days : List WeekPlanDay) (hd : db1.dayTemplates = db2.dayTemplates)
    (wd : Nat) :
    mappedTemplateSlotCount db1 days wd = mappedTemplateSlotCount db2 days wd := by
  cases hmap : day_map_get days wd with
  | none => simp only [mappedTemplateSlotCount, hmap]
  | some tid =>
    simp only [mappedTemplateSlotCount, hmap,
      get_day_template_by_id_congr db1 db2 tid hd]

theorem genDayStep_fold_spec (instId : Nat) (ws : Int) (now : Nat)
    (days : List WeekPlanDay) :
    ∀ (offsets : List Nat) (db : DB),
      ∃ extra rr nid,
        offsets.foldl (genDayStep instId ws now days) db =
          { db with
            instanceDays := db.instanceDays ++
              offsets.filterMap (gen_day_for instId ws now days),
            slots := db.slots ++ extra, rrStates := rr, nextSlotId := nid } ∧
        (∀ s ∈ extra, s.weeklyPlanInstanceId = instId ∧
          s.completionStatus = none ∧ s.completedAt = none ∧
          s.isAdhoc = false ∧ s.isManualOverride = false) ∧
        extra.length = (offsets.map (mappedTemplateSlotCount db days)).sum := by
  intro offsets
  induction offsets with
  | nil =>
    intro db
    refine ⟨[], db.rrStates, db.nextSlotId, ?_, by simp, by simp⟩
    simp
  | cons wd rest ih =>
    intro db
    have hfold : (wd :: rest).foldl (genDayStep instId ws now days) db =
        rest.foldl (genDayStep instId ws now days)
          (genDayStep instId ws now days db wd) := rfl
    cases hmap : day_map_get days wd with
    | none =>
      have hstep : genDayStep instId ws now days db wd = db := by
        simp only [genDayStep, hmap]
      obtain ⟨extra, rr, nid, heq, hprops, hlen⟩ := ih db
      refine ⟨extra, rr, nid, ?_, hprops, ?_⟩
      · rw [hfold, hstep, heq]
        simp [List.filterMap_cons, gen_day_for, hmap]
      · rw [hlen]
        simp [mappedTemplateSlotCount, hmap]
    | some tid =>
      have hgdf : gen_day_for instId ws now days wd =
          some { weeklyPlanInstanceId := instId, date := ws + (wd : Int),
                 dayTemplateId := some tid, isOverride := false,
                 overrideReason := none, updatedAt := now } := by
        rw [gen_day_for, hmap]
        rfl
      cases htpl : get_day_template_by_id db tid with
      | none =>
        have htpl2 : get_day_template_by_id
            { db with instanceDays := db.instanceDays ++
              [{ weeklyPlanInstanceId := instId, date := ws + (wd : Int),
                 dayTemplateId := some tid, isOverride := false,
                 overrideReason := none, updatedAt := now }] } tid = none := by
          exact htpl
        have hstep : genDayStep instId ws now days db wd =
            { db with instanceDays := db.instanceDays ++
              [{ weeklyPlanInstanceId := instId, date := ws + (wd : Int),
                 dayTemplateId := some tid, isOverride := false,
                 overrideReason := none, updatedAt := now }] } := by
          simp only [genDayStep, hmap, htpl2]
        obtain ⟨extra, rr, nid, heq, hprops, hlen⟩ :=
          ih { db with instanceDays := db.instanceDays ++
            [{ weeklyPlanInstanceId := instId, date := ws + (wd : Int),
               dayTemplateId := some tid, isOverride := false,
               overrideReason := none, updatedAt := now }] }
        refine ⟨extra, rr, nid, ?_, hprops, ?_⟩
        · rw [hfold, hstep, heq]
          simp [List.filterMap_cons, hgdf]
        · rw [hlen]
          have hcc : ∀ wd2, mappedTemplateSlotCount
              { db with instanceDays := db.instanceDays ++
                [{ weeklyPlanInstanceId := instId, date := ws + (wd : Int),
                   dayTemplateId := some tid, isOverride := false,
                   overrideReason := none, updatedAt := now }] } days wd2 =
              mappedTemplateSlotCount db days wd2 :=
            mappedTemplateSlotCount_congr _ db days rfl
          simp only [List.map_cons, List.sum_cons, List.map_congr_left
            (fun wd2 _ => hcc wd2)]
          simp [mappedTemplateSlotCount, hmap, htpl]
      | some t =>
        have htpl2 : get_day_template_by_id
            { db with instanceDays := db.instanceDays ++
              [{ weeklyPlanInstanceId := instId, date := ws + (wd : Int),
                 dayTemplateId := some tid, isOverride := false,
                 overrideReason := none, updatedAt := now }] } tid = some t := by
          exact htpl
        obtain ⟨e0, rr0, n0, heq0, hlen0, _, _, hmem0⟩ :=
          generate_slots_for_day_spec instId (ws + (wd : Int))
            (sortTemplateSlots t.slots)
            { db with instanceDays := db.instanceDays ++
              [{ weeklyPlanInstanceId := instId, date := ws + (wd : Int),
                 dayTemplateId := some tid, isOverride := false,
                 overrideReason := none, updatedAt := now }] }
        have hstep : genDayStep instId ws now days db wd =
            { db with
              instanceDays := db.instanceDays ++
                [{ weeklyPlanInstanceId := instId, date := ws + (wd : Int),
                   dayTemplateId := some tid, isOverride := false,
                   overrideReason := none, updatedAt := now }],
              slots := db.slots ++ e0, rrStates := rr0, nextSlotId := n0 } := by
          simp only [genDayStep, hmap, htpl2]
          rw [heq0]
        obtain ⟨e1, rr1, n1, heq1, hprops1, hlen1⟩ :=
          ih { db with
            instanceDays := db.instanceDays ++
              [{ weeklyPlanInstanceId := instId, date := ws + (wd : Int),
                 dayTemplateId := some tid, isOverride := false,
                 overrideReason := none, updatedAt := now }],
            slots := db.slots ++ e0, rrStates := rr0, nextSlotId := n0 }
        refine ⟨e0 ++ e1, rr1, n1, ?_, ?_, ?_⟩
        · rw [hfold, hstep, heq1]
          simp [List.filterMap_cons, hgdf, List.append_assoc]
        · intro s hs
          rcases List.mem_append.mp hs with hs0 | hs1
          · obtain ⟨p1, _, p3, p4, p5, p6, _⟩ := hmem0 s hs0
            exact ⟨p1, p3, p4, p5, p6⟩
          · exact hprops1 s hs1
        · have hsortlen : (sortTemplateSlots t.slots).length = t.slots.length :=
            (List.perm_insertionSort templateSlotOrder t.slots).length_eq
          have hcc : ∀ wd2, mappedTemplateSlotCount
              { db with
                instanceDays := db.instanceDays ++
                  [{ weeklyPlanInstanceId := instId, date := ws + (wd : Int),
                     dayTemplateId := some tid, isOverride := false,
                     overrideReason := none, updatedAt := now }],
                slots := db.slots ++ e0, rrStates := rr0, nextSlotId := n0 }
                days wd2 = mappedTemplateSlotCount db days wd2 :=
            mappedTemplateSlotCount_congr _ db days rfl
          rw [List.length_append, hlen0, hsortlen, hlen1]
          simp only [List.map_cons, List.sum_cons, List.map_congr_left
            (fun wd2 _ => hcc wd2)]
          simp [mappedTemplateSlotCount, hmap, htpl]

/-! ### Claim theorems: generation (C6) -/

/-- **C6, counterexample**: with `dbG`, week start day 0 (a Monday), no
existing instance, and an existing default week plan, calling
`generate_weekly_plan` with the explicit, non-existent week plan id `99`
fails — a fourth failure case the claim's "exactly these cases" list does
not contain. -/
theorem generate_weekly_plan_extra_error_case :
    dateWeekday 0 = 0 ∧
    get_weekly_instance_by_week_start dbG 0 1 = none ∧
    (get_default_week_plan dbG 1).isSome = true ∧
    generate_weekly_plan dbG (some 0) (some 99) 1 0 0 =
      .error .weekPlanNotFound := by
  refine ⟨rfl, rfl, by decide, by rfl⟩

/-- **C6, amended**: `generate_weekly_plan` fails, creating nothing, in
exactly these cases: a week start that is not a Monday; an
already-existing instance for `(owner, week start)`; no explicit week plan
id and no default week plan; an explicit week plan id that does not
resolve.  Otherwise it creates the instance with one `InstanceDay`
(`is_override = false`) per mapped weekday — silently skipping unmapped
weekdays — and one slot per slot of each mapped resolved template, every
created slot having null completion. -/
theorem generate_weekly_plan_spec :
    (∀ (db : DB) (ws : Int) (weekPlanId : Option Nat) (userId : Nat)
        (today : Int) (now : Nat),
      (∃ e, generate_weekly_plan db (some ws) weekPlanId userId today now
          = .error e) ↔
        (dateWeekday ws ≠ 0 ∨
         (get_weekly_instance_by_week_start db ws userId).isSome = true ∨
         (weekPlanId = none ∧ get_default_week_plan db userId = none) ∨
         (∃ w, weekPlanId = some w ∧ get_week_plan_by_id db w = none))) ∧
    (∀ (db : DB) (ws : Int) (weekPlanId : Option Nat) (userId : Nat)
        (today : Int) (now : Nat) (inst : WeeklyPlanInstance) (db2 : DB)
        (wp : WeekPlan),
      generate_weekly_plan db (some ws) weekPlanId userId today now
        = .ok (inst, db2) →
      resolved_week_plan db weekPlanId userId = some wp →
      GenerateSuccess db ws userId now wp inst db2) := by
  constructor
  · intro db ws weekPlanId userId today now
    simp only [generate_weekly_plan]
    by_cases hmon : dateWeekday ws ≠ 0
    · rw [if_pos hmon]
      exact ⟨fun _ => Or.inl hmon, fun _ => ⟨.notMonday, rfl⟩⟩
    · rw [if_neg hmon]
      by_cases hex : (get_weekly_instance_by_week_start db ws userId).isSome = true
      · rw [if_pos hex]
        exact ⟨fun _ => Or.inr (Or.inl hex), fun _ => ⟨.alreadyExists, rfl⟩⟩
      · rw [if_neg hex]
        cases weekPlanId with
        | some wid =>
          cases hw : get_week_plan_by_id db wid with
          | none =>
            simp only [hw]
            exact ⟨fun _ => Or.inr (Or.inr (Or.inr ⟨wid, rfl, hw⟩)),
              fun _ => ⟨.weekPlanNotFound, rfl⟩⟩
          | some wp0 =>
            simp only [hw]
            constructor
            · rintro ⟨e, he⟩
              exact Except.noConfusion he
            · rintro (h | h | ⟨h, _⟩ | ⟨w, hw2, hfind⟩)
              · exact absurd h hmon
              · exact absurd h hex
              · exact Option.noConfusion h
              · rw [← Option.some_inj.mp hw2] at hfind
                rw [hw] at hfind
                exact Option.noConfusion hfind
        | none =>
          cases hd : get_default_week_plan db userId with
          | none =>
            simp only [hd]
            exact ⟨fun _ => Or.inr (Or.inr (Or.inl (by simp [hd]))),
              fun _ => ⟨.noDefaultWeekPlan, rfl⟩⟩
          | some wp0 =>
            simp only [hd]
            constructor
            · rintro ⟨e, he⟩
              exact Except.noConfusion he
            · rintro (h | h | ⟨_, h2⟩ | ⟨w, hw2, _⟩)
              · exact absurd h hmon
              · exact absurd h hex
              · exact Option.noConfusion h2
              · exact Option.noConfusion hw2
  · intro db ws weekPlanId userId today now inst db2 wp hok hwp
    simp only [generate_weekly_plan] at hok
    by_cases hmon : dateWeekday ws ≠ 0
    · rw [if_pos hmon] at hok
      exact Except.noConfusion hok
    · rw [if_neg hmon] at hok
      by_cases hex : (get_weekly_instance_by_week_start db ws userId).isSome = true
      · rw [if_pos hex] at hok
        exact Except.noConfusion hok
      · rw [if_neg hex] at hok
        cases hwp2 : resolved_week_plan db weekPlanId userId with
        | none =>
          rw [hwp2] at hwp
          exact Option.noConfusion hwp
        | some wp0 =>
          have hwpeq : wp0 = wp := by
            rw [hwp2] at hwp
            exact Option.some_inj.mp hwp
          subst hwpeq
          have hok2 : (Except.ok
              (gen_inst_for db ws userId wp0,
               (List.range 7).foldl
                 (genDayStep db.nextInstanceId ws now wp0.days)
                 (gen_db0_for db ws userId wp0)) :
              Except GenerateError (WeeklyPlanInstance × DB))
              = Except.ok (inst, db2) := by
            cases weekPlanId with
            | some wid =>
              simp only [resolved_week_plan] at hwp2
              simp only [hwp2] at hok
              exact hok
            | none =>
              simp only [resolved_week_plan] at hwp2
              simp only [hwp2] at hok
              exact hok
          have hpair := Except.ok.inj hok2
          have hinst : gen_inst_for db ws userId wp0 = inst :=
            congrArg Prod.fst hpair
          have hdb2 : (List.range 7).foldl
              (genDayStep db.nextInstanceId ws now wp0.days)
              (gen_db0_for db ws userId wp0) = db2 :=
            congrArg Prod.snd hpair
          subst hinst
          subst hdb2
          obtain ⟨extra, rr, nid, heq, hprops, hlen⟩ :=
            genDayStep_fold_spec db.nextInstanceId ws now wp0.days
              (List.range 7) (gen_db0_for db ws userId wp0)
          refine ⟨rfl, rfl, rfl, rfl, ?_, ?_, extra, ?_, hprops, ?_⟩
          · rw [heq]
            rfl
          · rw [heq]
            rfl
          · rw [heq]
            rfl
          · rw [hlen]
            have hcc : ∀ wd2, mappedTemplateSlotCount
                (gen_db0_for db ws userId wp0) wp0.days wd2 =
                mappedTemplateSlotCount db wp0.days wd2 :=
              mappedTemplateSlotCount_congr (gen_db0_for db ws userId wp0)
                db wp0.days rfl
            rw [List.map_congr_left (fun wd2 _ => hcc wd2)]

/-- Witness for `generate_weekly_plan_spec`: generating the week of day 0
for `dbG` from the default week plan succeeds and satisfies
`GenerateSuccess`. -/
theorem generate_weekly_plan_spec_witness :
    (generate_weekly_plan dbG (some 0) none 1 0 0
        = .ok (genOutG.1, genOutG.2) ∧
      resolved_week_plan dbG none 1 = some wpG) ∧
    GenerateSuccess dbG 0 1 0 wpG genOutG.1 genOutG.2 :=
  ⟨⟨by rfl, by rfl⟩,
    generate_weekly_plan_spec.2 dbG 0 none 1 0 0 genOutG.1 genOutG.2 wpG
      (by rfl) (by rfl)⟩

/-! ### Helper lemmas about regeneration -/

theorem SlotNonMealEq_refl (a : Slot) : SlotNonMealEq a a :=
  ⟨rfl, rfl, rfl, rfl, rfl, rfl, rfl, rfl, rfl, rfl⟩

theorem SlotNonMealEq_trans (a b c : Slot) (h1 : SlotNonMealEq a b)
    (h2 : SlotNonMealEq b c) : SlotNonMealEq a c := by
  obtain ⟨p1, p2, p3, p4, p5, p6, p7, p8, p9, p10⟩ := h1
  obtain ⟨q1, q2, q3, q4, q5, q6, q7, q8, q9, q10⟩ := h2
  exact ⟨p1.trans q1, p2.trans q2, p3.trans q3, p4.trans q4, p5.trans q5,
    p6.trans q6, p7.trans q7, p8.trans q8, p9.trans q9, p10.trans q10⟩

theorem slot_ext_of_nonMealEq (a b : Slot) (h : SlotNonMealEq a b)
    (hm : a.mealId = b.mealId) : a = b := by
  obtain ⟨p1, p2, p3, p4, p5, p6, p7, p8, p9, p10⟩ := h
  cases a
  cases b
  simp_all

theorem regenPreserve_refl (instId : Nat) (db0 : DB) :
    RegenPreserve instId db0 db0.slots :=
  ⟨rfl, fun i h h2 => ⟨SlotNonMealEq_refl _, fun hne => absurd rfl hne⟩⟩

theorem regenPreserve_update (instId : Nat) (db0 : DB) (S : List Slot)
    (targetId : Nat) (X : Option Nat)
    (hnd : (db0.slots.map Slot.id).Nodup)
    (hinv : RegenPreserve instId db0 S)
    (htgt : GoodTarget instId db0 targetId) :
    RegenPreserve instId db0
      (updateSlotById S targetId (fun t => { t with mealId := X })) := by
  obtain ⟨hlen, hpt⟩ := hinv
  refine ⟨?_, ?_⟩
  · rw [updateSlotById, List.length_map, hlen]
  · intro i h h2
    have h2S : i < S.length := by
      rw [updateSlotById, List.length_map] at h2
      exact h2
    have hget : (updateSlotById S targetId
        (fun t => { t with mealId := X })).get ⟨i, h2⟩ =
        if (S.get ⟨i, h2S⟩).id = targetId then
          { S.get ⟨i, h2S⟩ with mealId := X }
        else S.get ⟨i, h2S⟩ := by
      have hlists : updateSlotById S targetId
          (fun t => { t with mealId := X }) =
          S.map (fun s => if s.id = targetId then
            { s with mealId := X } else s) := rfl
      rw [List.get_of_eq hlists ⟨i, h2⟩]
      simp [List.get_eq_getElem, List.getElem_map]
    obtain ⟨hfr, himp⟩ := hpt i h h2S
    by_cases hc : (S.get ⟨i, h2S⟩).id = targetId
    · rw [hget, if_pos hc]
      constructor
      · refine SlotNonMealEq_trans _ _ _ ?_ hfr
        exact ⟨rfl, rfl, rfl, rfl, rfl, rfl, rfl, rfl, rfl, rfl⟩
      · intro _
        obtain ⟨j, hj, hjid, hjstat, hjinst, hjday⟩ := htgt
        have hideq : (db0.slots.get ⟨i, h⟩).id = (db0.slots.get ⟨j, hj⟩).id := by
          rw [hjid, ← hc, hfr.1]
        have hij : i = j := by
          have hinj := List.nodup_iff_injective_get.mp hnd
          have hgi : (db0.slots.map Slot.id).get
              ⟨i, by rw [List.length_map]; exact h⟩ =
              (db0.slots.map Slot.id).get
              ⟨j, by rw [List.length_map]; exact hj⟩ := by
            simp only [List.get_map]
            exact hideq
          have := hinj hgi
          exact congrArg Fin.val this
        subst hij
        exact ⟨hjstat, hjinst, hjday⟩
    · rw [hget, if_neg hc]
      exact ⟨hfr, himp⟩

theorem goodTarget_of_mem (instId : Nat) (db0 : DB) (S : List Slot)
    (hinv : RegenPreserve instId db0 S) (s : Slot) (hs : s ∈ S)
    (hstat : s.completionStatus = none)
    (hinst : s.weeklyPlanInstanceId = instId)
    (day : InstanceDay) (hday : day ∈ db0.instanceDays)
    (hdayinst : day.weeklyPlanInstanceId = instId) (hdate : day.date = s.date)
    (hov : day.isOverride = false) (htid : day.dayTemplateId.isSome = true) :
    GoodTarget instId db0 s.id := by
  obtain ⟨hlen, hpt⟩ := hinv
  obtain ⟨⟨j, hj2⟩, hget⟩ := List.mem_iff_get.mp hs
  have hj : j < db0.slots.length := by rw [← hlen]; exact hj2
  obtain ⟨hfr, _⟩ := hpt j hj hj2
  refine ⟨j, hj, ?_, ?_, ?_, day, hday, hdayinst, ?_, hov, htid⟩
  · rw [← hfr.1, hget]
  · rw [← hfr.2.2.2.2.2.2.2.1, hget]
    exact hstat
  · rw [← hfr.2.1, hget]
    exact hinst
  · rw [← hfr.2.2.1, hget]
    exact hdate

theorem regenInv_regenSlotStep (instId : Nat) (db0 : DB)
    (template : DayTemplate) (dbc : DB) (slot : Slot)
    (hnd : (db0.slots.map Slot.id).Nodup)
    (hinv : RegenInv instId db0 dbc)
    (htgt : GoodTarget instId db0 slot.id) :
    RegenInv instId db0 (regenSlotStep template dbc slot) := by
  rw [regenSlotStep]
  cases template_slot_at_position template.slots slot.position with
  | none => exact hinv
  | some ts =>
    show RegenInv instId db0
      { (get_next_meal_for_type dbc ts.mealTypeId).2 with
        slots := updateSlotById (get_next_meal_for_type dbc ts.mealTypeId).2.slots
          slot.id (fun t =>
            { t with mealId := ((get_next_meal_for_type dbc ts.mealTypeId).1).map Meal.id }) }
    obtain ⟨rr, hrr⟩ := get_next_meal_for_type_shape dbc ts.mealTypeId
    rw [hrr]
    obtain ⟨f1, f2, f3, f4, f5, f6, f7, f8, fpre⟩ := hinv
    exact ⟨f1, f2, f3, f4, f5, f6, f7, f8,
      regenPreserve_update instId db0 dbc.slots slot.id _ hnd fpre htgt⟩

theorem regenInv_slot_fold (instId : Nat) (db0 : DB) (template : DayTemplate)
    (hnd : (db0.slots.map Slot.id).Nodup) :
    ∀ (L : List Slot) (dbc : DB),
      (∀ s ∈ L, GoodTarget instId db0 s.id) →
      RegenInv instId db0 dbc →
      RegenInv instId db0 (L.foldl (regenSlotStep template) dbc) := by
  intro L
  induction L with
  | nil => intro dbc _ hinv; exact hinv
  | cons s rest ih =>
    intro dbc hall hinv
    have hstep := regenInv_regenSlotStep instId db0 template dbc s
      hnd hinv (hall s (List.mem_cons_self s rest))
    exact ih (regenSlotStep template dbc s)
      (fun t ht => hall t (List.mem_cons_of_mem s ht)) hstep

theorem regenInv_regenerate_day (instId : Nat) (db0 : DB) (dbc : DB)
    (day : InstanceDay)
    (hnd : (db0.slots.map Slot.id).Nodup)
    (hinv : RegenInv instId db0 dbc)
    (hday : day ∈ db0.instanceDays)
    (hdayinst : day.weeklyPlanInstanceId = instId) :
    RegenInv instId db0 (regenerate_day dbc instId day) := by
  rw [regenerate_day]
  by_cases hov : day.isOverride = true
  · rw [if_pos hov]
    exact hinv
  · rw [if_neg hov]
    have hov2 : day.isOverride = false := by
      revert hov
      cases day.isOverride <;> simp
    cases htid : day.dayTemplateId with
    | none => exact hinv
    | some tid =>
      show RegenInv instId db0
        (if (get_slots_for_instance_day dbc instId day.date).filter
            (fun s => decide (s.completionStatus = none)) = [] then dbc
         else
           match get_day_template_by_id dbc tid with
           | none => dbc
           | some template =>
             ((get_slots_for_instance_day dbc instId day.date).filter
               (fun s => decide (s.completionStatus = none))).foldl
               (regenSlotStep template) dbc)
      by_cases hemp : (get_slots_for_instance_day dbc instId day.date).filter
          (fun s => decide (s.completionStatus = none)) = []
      · rw [if_pos hemp]
        exact hinv
      · rw [if_neg hemp]
        cases get_day_template_by_id dbc tid with
        | none => exact hinv
        | some template =>
          refine regenInv_slot_fold instId db0 template hnd _ dbc ?_ hinv
          intro s hs
          have hs2 := List.mem_filter.mp hs
          have hstat : s.completionStatus = none :=
            of_decide_eq_true hs2.2
          have hs3 : s ∈ dbc.slots ∧
              (s.weeklyPlanInstanceId = instId ∧ s.date = day.date) := by
            have hmemsort := hs2.1
            rw [get_slots_for_instance_day] at hmemsort
            have hmemfil := (List.perm_insertionSort slotPositionOrder _).mem_iff.mp
              hmemsort
            have := List.mem_filter.mp hmemfil
            exact ⟨this.1, of_decide_eq_true this.2⟩
          exact goodTarget_of_mem instId db0 dbc.slots hinv.2.2.2.2.2.2.2.2 s
            hs3.1 hstat hs3.2.1 day hday hdayinst hs3.2.2.symm hov2
            (by rw [htid]; rfl)

theorem regenInv_day_fold (instId : Nat) (db0 : DB)
    (hnd : (db0.slots.map Slot.id).Nodup) :
    ∀ (days : List InstanceDay) (dbc : DB),
      (∀ d ∈ days, d ∈ db0.instanceDays ∧ d.weeklyPlanInstanceId = instId) →
      RegenInv instId db0 dbc →
      RegenInv instId db0
        (days.foldl (fun db day => regenerate_day db instId day) dbc) := by
  intro days
  induction days with
  | nil => intro dbc _ hinv; exact hinv
  | cons d rest ih =>
    intro dbc hall hinv
    have hd := hall d (List.mem_cons_self d rest)
    exact ih (regenerate_day dbc instId d)
      (fun t ht => hall t (List.mem_cons_of_mem d ht))
      (regenInv_regenerate_day instId db0 dbc d hnd hinv hd.1 hd.2)

theorem regenInv_refl (instId : Nat) (db0 : DB) : RegenInv instId db0 db0 :=
  ⟨rfl, rfl, rfl, rfl, rfl, rfl, rfl, rfl, regenPreserve_refl instId db0⟩

theorem regenerate_master (db : DB) (weekStartArg : Int) (userId : Nat)
    (inst : WeeklyPlanInstance) (db2 : DB)
    (hnd : (db.slots.map Slot.id).Nodup)
    (hok : regenerate_weekly_plan db weekStartArg userId = .ok (inst, db2)) :
    ∃ instId, RegenPreserve instId db db2.slots := by
  simp only [regenerate_weekly_plan] at hok
  cases hfind : get_weekly_instance_by_week_start db
      (get_week_start_date weekStartArg) userId with
  | none =>
    rw [hfind] at hok
    exact Except.noConfusion hok
  | some inst0 =>
    rw [hfind] at hok
    cases hfull : db.instances.find? (fun i => decide (i.id = inst0.id)) with
    | none =>
      simp only [hfull] at hok
      exact Except.noConfusion hok
    | some fullInst =>
      simp only [hfull] at hok
      have hdb2 : (db.instanceDays.filter (fun d =>
          decide (d.weeklyPlanInstanceId = fullInst.id))).foldl
          (fun dbx day => regenerate_day dbx fullInst.id day) db = db2 :=
        congrArg Prod.snd (Except.ok.inj hok)
      refine ⟨fullInst.id, ?_⟩
      have hinv := regenInv_day_fold fullInst.id db hnd
        (db.instanceDays.filter (fun d =>
          decide (d.weeklyPlanInstanceId = fullInst.id))) db
        (fun d hd => by
          have := List.mem_filter.mp hd
          exact ⟨this.1, of_decide_eq_true this.2⟩)
        (regenInv_refl fullInst.id db)
      rw [hdb2] at hinv
      exact hinv.2.2.2.2.2.2.2.2

/-! ### Claim theorems: smart regeneration (C2, C10) -/

/-- **C2**: on every successful regeneration (slot-table primary keys being
distinct, as they are in the database), every slot with a non-null
completion status is left entirely untouched — its row is bit-for-bit the
same, assigned item, status and timestamp included — and a fresh rotation
item is assigned only to slots with null completion status on days that
are not overridden and carry a template reference (nothing but the
re-rolled `meal_id` changes). -/
theorem regenerate_preserves_completions (db : DB) (weekStartArg : Int)
    (userId : Nat) (inst : WeeklyPlanInstance) (db2 : DB)
    (hnd : (db.slots.map Slot.id).Nodup)
    (hok : regenerate_weekly_plan db weekStartArg userId = .ok (inst, db2)) :
    RegenOutcome db db2 := by
  obtain ⟨instId, hlen, hpt⟩ :=
    regenerate_master db weekStartArg userId inst db2 hnd hok
  refine ⟨hlen, ?_⟩
  intro i h h2
  obtain ⟨hfr, himp⟩ := hpt i h h2
  refine ⟨?_, hfr, ?_⟩
  · intro hstat
    by_cases hme : (db2.slots.get ⟨i, h2⟩).mealId = (db.slots.get ⟨i, h⟩).mealId
    · exact slot_ext_of_nonMealEq _ _ hfr hme
    · exact absurd (himp hme).1 hstat
  · intro hme
    obtain ⟨h1, _, day, hday, _, hd2, hd3, hd4⟩ := himp hme
    exact ⟨h1, day, hday, hd2, hd3, hd4⟩

/-- Witness for `regenerate_preserves_completions` at `dbC2`: one
completed and one uncompleted slot. -/
theorem regenerate_preserves_completions_witness :
    ((dbC2.slots.map Slot.id).Nodup ∧
      regenerate_weekly_plan dbC2 0 1 = .ok (regenOutC2.1, regenOutC2.2)) ∧
    RegenOutcome dbC2 regenOutC2.2 :=
  ⟨⟨by decide, by rfl⟩,
    regenerate_preserves_completions dbC2 0 1 regenOutC2.1 regenOutC2.2
      (by decide) (by rfl)⟩

/-- **C10**: regeneration never inserts or deletes slot rows — the
`(date, position)` keys are identical, in order, before and after, so
ad-hoc slots survive — and it mutates only the assigned item of the slots
it re-rolls; and a slot with `is_manual_override = true` but null
completion status is not exempt: at `dbM` the manually chosen meal 7 is
overwritten with the rotation result meal 9. -/
theorem regenerate_row_frame_and_manual_override (db : DB)
    (weekStartArg : Int) (userId : Nat) (inst : WeeklyPlanInstance)
    (db2 : DB) (hnd : (db.slots.map Slot.id).Nodup)
    (hok : regenerate_weekly_plan db weekStartArg userId = .ok (inst, db2)) :
    RegenSlotRowsPreserved db db2 ∧
    (regenerate_weekly_plan dbM 0 1 = .ok (regenOutM.1, regenOutM.2) ∧
      dbM.slots.map (fun s => (s.isManualOverride, s.completionStatus, s.mealId))
        = [(true, none, some 7)] ∧
      regenOutM.2.slots.map (fun s => s.mealId) = [some 9] ∧
      regenOutM.2.slots.map (fun s => (s.date, s.position)) =
        dbM.slots.map (fun s => (s.date, s.position))) := by
  obtain ⟨instId, hlen, hpt⟩ :=
    regenerate_master db weekStartArg userId inst db2 hnd hok
  refine ⟨⟨hlen, ?_, ?_⟩, by rfl, by rfl, by rfl, by rfl⟩
  · refine List.ext_get (by rw [List.length_map, List.length_map, hlen]) ?_
    intro n h1 h2
    have hn2 : n < db2.slots.length := by
      rw [List.length_map] at h1
      exact h1
    have hn : n < db.slots.length := by
      rw [List.length_map] at h2
      exact h2
    obtain ⟨hfr, _⟩ := hpt n hn hn2
    simp only [List.get_eq_getElem] at hfr
    simp only [List.get_eq_getElem, List.getElem_map]
    rw [hfr.2.2.1, hfr.2.2.2.1]
  · intro i h h2
    exact (hpt i h h2).1

/-- Witness for `regenerate_row_frame_and_manual_override` at `dbM`. -/
theorem regenerate_row_frame_and_manual_override_witness :
    ((dbM.slots.map Slot.id).Nodup ∧
      regenerate_weekly_plan dbM 0 1 = .ok (regenOutM.1, regenOutM.2)) ∧
    (RegenSlotRowsPreserved dbM regenOutM.2 ∧
      (regenerate_weekly_plan dbM 0 1 = .ok (regenOutM.1, regenOutM.2) ∧
        dbM.slots.map (fun s => (s.isManualOverride, s.completionStatus, s.mealId))
          = [(true, none, some 7)] ∧
        regenOutM.2.slots.map (fun s => s.mealId) = [some 9] ∧
        regenOutM.2.slots.map (fun s => (s.date, s.position)) =
          dbM.slots.map (fun s => (s.date, s.position)))) :=
  ⟨⟨by decide, by rfl⟩,
    regenerate_row_frame_and_manual_override dbM 0 1 regenOutM.1 regenOutM.2
      (by decide) (by rfl)⟩

end MealFrame
